import Mathlib

/-!
Verification development for the sentient-weather-bedrock repository.

The repository consists of two Python files, `src/sentient_weather.py`
(the Flask route handler and its font/color post-processing helpers) and
`src/notebook_functions.py` (weather lookup, palette/font/image generation
against AWS Bedrock, and the on-disk image cache).  This file gives a
shallow embedding of the data model and the operations those files define,
and proves or refutes the frozen specification claims about them.

Conventions of the embedding:
  * Python values flowing through the dynamically typed code are modelled
    by the inductive type `PyVal`; Python `dict`s (whose keys are always
    strings here, as they come from JSON) are association lists in
    insertion order, matching CPython's ordered dicts.
  * Python exceptions are modelled with `Except Unit`; a `try/except`
    block becomes a `match` on the `Except` result.
  * Floating point weather readings are modelled as `Int`; no claim
    computes with them.
  * External collaborators (geocoding, the weather API, the Bedrock
    models) are oracle parameters: an `Option` result models the source
    returning a value or failing (exception / error return).
-/

/-- Model of a Python/JSON value as it flows through the two source files. -/
inductive PyVal where
  | null : PyVal
  | pbool : Bool → PyVal
  | int : Int → PyVal
  | str : String → PyVal
  | list : List PyVal → PyVal
  | dict : List (String × PyVal) → PyVal

/-- First-match association-list lookup: Python `d[k]` / `d.get(k)` on a
string-keyed dict (keys are unique in a Python dict, so first match is the
match). -/
def lookupAssoc {α : Type} (l : List (String × α)) (k : String) : Option α :=
  match l with
  | [] => none
  | (k', v) :: rest => if k' = k then some v else lookupAssoc rest k

/-- Python `d[k] = v` on a string-keyed dict: replace in place if the key
exists, else append (insertion order is preserved, as in CPython). -/
def assocSet {α : Type} (l : List (String × α)) (k : String) (v : α) :
    List (String × α) :=
  match l with
  | [] => [(k, v)]
  | (k', v') :: rest =>
      if k' = k then (k, v) :: rest else (k', v') :: assocSet rest k v

/-- Python truthiness (`if not x`) for the modelled values. -/
def PyVal.truthy : PyVal → Bool
  | .null => false
  | .pbool b => b
  | .int n => decide (n ≠ 0)
  | .str s => !s.toList.isEmpty
  | .list xs => !xs.isEmpty
  | .dict kvs => !kvs.isEmpty

/-- Contiguous-substring test on character lists (Python `in` on `str`). -/
def listSubstr (needle : List Char) : List Char → Bool
  | [] => needle.isEmpty
  | c :: rest => List.isPrefixOf needle (c :: rest) || listSubstr needle rest

/-- Python `key in x` for a string `key`.  Key containment on dicts,
element membership on lists, substring test on strings; `TypeError`
(modelled as `Except.error`) on the other types. -/
def pyIn (key : String) : PyVal → Except Unit Bool
  | .dict kvs => .ok (kvs.any (fun p => decide (p.1 = key)))
  | .list xs =>
      -- Python `==` of each element against the string key: only equal
      -- strings compare equal, every other value compares unequal.
      .ok (xs.any (fun v => match v with | .str s => decide (s = key) | _ => false))
  | .str s => .ok (listSubstr key.toList s.toList)
  | _ => .error ()

/-- Python `x[key]` for a string `key`: dict lookup (`KeyError` when the
key is absent); `TypeError` on lists, strings and the rest. -/
def pyGetItem (key : String) : PyVal → Except Unit PyVal
  | .dict kvs =>
      match lookupAssoc kvs key with
      | some v => .ok v
      | none => .error ()
  | _ => .error ()

/-- Python `x[key] = v` for a string `key`: only dicts support it
(`TypeError` otherwise). -/
def pySetItem (key : String) (v : PyVal) : PyVal → Except Unit PyVal
  | .dict kvs => .ok (.dict (assocSet kvs key v))
  | _ => .error ()

/-- Python `x.copy()`: dicts and lists have a `copy` method; `None`,
booleans, numbers and strings do not (`AttributeError`). -/
def pyCopy : PyVal → Except Unit PyVal
  | .dict kvs => .ok (.dict kvs)
  | .list xs => .ok (.list xs)
  | _ => .error ()

mutual

/-- Python `repr` of a modelled value (dict/list element rendering inside
f-strings).  Only its totality matters to the claims. -/
def pyRepr : PyVal → String
  | .null => "None"
  | .pbool true => "True"
  | .pbool false => "False"
  | .int n => toString n
  | .str s => String.singleton (Char.ofNat 39) ++ s ++ String.singleton (Char.ofNat 39)
  | .list xs => "[" ++ pyReprList xs ++ "]"
  | .dict kvs => "\x7b" ++ pyReprDict kvs ++ "\x7d"

def pyReprList : List PyVal → String
  | [] => ""
  | [x] => pyRepr x
  | x :: xs => pyRepr x ++ ", " ++ pyReprList xs

def pyReprDict : List (String × PyVal) → String
  | [] => ""
  | [(k, v)] =>
      String.singleton (Char.ofNat 39) ++ k ++ String.singleton (Char.ofNat 39)
        ++ ": " ++ pyRepr v
  | (k, v) :: kvs =>
      String.singleton (Char.ofNat 39) ++ k ++ String.singleton (Char.ofNat 39)
        ++ ": " ++ pyRepr v ++ ", " ++ pyReprDict kvs

end

/-- Python `str(x)` / f-string rendering of a modelled value. -/
def pyStr : PyVal → String
  | .null => "None"
  | .pbool true => "True"
  | .pbool false => "False"
  | .int n => toString n
  | .str s => s
  | .list xs => pyRepr (.list xs)
  | .dict kvs => pyRepr (.dict kvs)

/-! ## A model of `json.loads`

The source calls `json.loads` on strings produced by the Bedrock models.
No claim depends on what a particular string parses to — only that parsing
either yields some `PyVal` or fails — so the model below is a plain
fuel-bounded recursive-descent parser for the JSON subset with integer
numbers and escape-free strings. -/

def jsonSkipWs : List Char → List Char
  | [] => []
  | c :: cs => if c = ' ' ∨ c = '\t' ∨ c = '\n' ∨ c = '\r' then jsonSkipWs cs else c :: cs

def jsonTakeStr : List Char → Option (String × List Char)
  | [] => none
  | c :: cs =>
      if c = '"' then some ("", cs)
      else match jsonTakeStr cs with
        | some (s, rest) => some (String.singleton c ++ s, rest)
        | none => none

def jsonTakeNat : List Char → Nat → List Char × Nat
  | [], acc => ([], acc)
  | c :: cs, acc =>
      if c.isDigit then jsonTakeNat cs (acc * 10 + (c.toNat - 48)) else (c :: cs, acc)

mutual

def jsonVal (fuel : Nat) (cs : List Char) : Option (PyVal × List Char) :=
  match fuel with
  | 0 => none
  | fuel + 1 =>
    match jsonSkipWs cs with
    | [] => none
    | c :: rest =>
      if c = '"' then
        match jsonTakeStr rest with
        | some (s, rest') => some (.str s, rest')
        | none => none
      else if c = '[' then jsonArr fuel (jsonSkipWs rest) true
      else if c = '\x7b' then jsonObj fuel (jsonSkipWs rest) true
      else if c = 't' then
        match rest with
        | 'r' :: 'u' :: 'e' :: rest' => some (.pbool true, rest')
        | _ => none
      else if c = 'f' then
        match rest with
        | 'a' :: 'l' :: 's' :: 'e' :: rest' => some (.pbool false, rest')
        | _ => none
      else if c = 'n' then
        match rest with
        | 'u' :: 'l' :: 'l' :: rest' => some (.null, rest')
        | _ => none
      else if c = '-' then
        match rest with
        | d :: _ =>
            if d.isDigit then
              let (rest', n) := jsonTakeNat rest 0
              some (.int (-(n : Int)), rest')
            else none
        | [] => none
      else if c.isDigit then
        let (rest', n) := jsonTakeNat (c :: rest) 0
        some (.int (n : Int), rest')
      else none

def jsonArr (fuel : Nat) (cs : List Char) (first : Bool) : Option (PyVal × List Char) :=
  match fuel with
  | 0 => none
  | fuel + 1 =>
    match jsonSkipWs cs with
    | ']' :: rest => if first then some (.list [], rest) else none
    | cs' =>
      match jsonVal fuel cs' with
      | none => none
      | some (v, rest) =>
        match jsonSkipWs rest with
        | ',' :: rest' =>
            (match jsonArr fuel rest' false with
             | some (.list vs, rest'') => some (.list (v :: vs), rest'')
             | _ => none)
        | ']' :: rest' => some (.list [v], rest')
        | _ => none

def jsonObj (fuel : Nat) (cs : List Char) (first : Bool) : Option (PyVal × List Char) :=
  match fuel with
  | 0 => none
  | fuel + 1 =>
    match jsonSkipWs cs with
    | '\x7d' :: rest => if first then some (.dict [], rest) else none
    | '"' :: rest =>
      match jsonTakeStr rest with
      | none => none
      | some (k, rest') =>
        match jsonSkipWs rest' with
        | ':' :: rest'' =>
          match jsonVal fuel rest'' with
          | none => none
          | some (v, rest3) =>
            match jsonSkipWs rest3 with
            | ',' :: rest4 =>
                (match jsonObj fuel rest4 false with
                 | some (.dict kvs, rest5) => some (.dict (assocSet kvs k v), rest5)
                 | _ => none)
            | '\x7d' :: rest4 => some (.dict [(k, v)], rest4)
            | _ => none
        | _ => none
    | _ => none

end

/-- Model of `json.loads`: `none` models a raised `JSONDecodeError`. -/
def jsonParse (s : String) : Option PyVal :=
  match jsonVal (s.length + 1) s.toList with
  | some (v, rest) => if jsonSkipWs rest = [] then some v else none
  | none => none

/-! ## Fonts: defaults and `process_fonts` (src/sentient_weather.py)

`sentient_weather.py` defines its own `get_default_fonts` (with a
`google_fonts_url` entry) and its own `process_fonts`; these shadow the
variants in `notebook_functions.py`, so the route handler uses the ones
below.  The two same-named source functions are distinguished here by the
prefixes `sw_` (sentient_weather.py) and `nb_` (notebook_functions.py). -/

/-- `get_default_fonts` from src/sentient_weather.py. -/
def sw_get_default_fonts : PyVal :=
  .dict
    [ ("google_fonts_url", .str ("https://fonts.googleapis.com/css2?family=Playfair+Display:wght@700&family=Montserrat:wght@600&family=Open+Sans&family=Roboto+Condensed&display=swap")),
      ("primary_heading", .dict
        [ ("family", .str ("Playfair Display")), ("fallback", .str ("serif")),
          ("weight", .str ("700")), ("style", .str ("normal")) ]),
      ("secondary_heading", .dict
        [ ("family", .str ("Montserrat")), ("fallback", .str ("sans-serif")),
          ("weight", .str ("600")), ("style", .str ("normal")) ]),
      ("body_text", .dict
        [ ("family", .str ("Open Sans")), ("fallback", .str ("sans-serif")),
          ("weight", .str ("400")), ("style", .str ("normal")) ]),
      ("accent_text", .dict
        [ ("family", .str ("Roboto Condensed")), ("fallback", .str ("sans-serif")),
          ("weight", .str ("400")), ("style", .str ("normal")) ]) ]

/-- The four font categories iterated by `process_fonts`. -/
def font_categories : List String :=
  ["primary_heading", "secondary_heading", "body_text", "accent_text"]

/-- `required_fields` from `process_fonts`. -/
def required_fields : List String := ["family", "weight", "style", "fallback"]

/-- `get_default_fonts()[font_type]` — never raises for the categories it
is invoked with, so the `Except` plumbing is discharged with `.null`
placeholders that are provably never reached. -/
def sw_default_font (cat : String) : PyVal :=
  ((pyGetItem cat sw_get_default_fonts).toOption).getD .null

/-- `get_default_fonts()[font_type][field]`. -/
def sw_default_field (cat fl : String) : PyVal :=
  ((pyGetItem fl (sw_default_font cat)).toOption).getD .null

/-- First loop of `process_fonts`: build `processed_fonts` by copying each
present category (`generated_fonts[font_type].copy()`) and substituting
the default entry for each absent one. -/
def sw_build_categories : List String → PyVal → Except Unit (List (String × PyVal))
  | [], _ => .ok []
  | cat :: cats, gf =>
      match pyIn cat gf with
      | .error e => .error e
      | .ok true =>
          match pyGetItem cat gf with
          | .error e => .error e
          | .ok cv =>
            match pyCopy cv with
            | .error e => .error e
            | .ok v =>
              match sw_build_categories cats gf with
              | .error e => .error e
              | .ok rest => .ok ((cat, v) :: rest)
      | .ok false =>
          match sw_build_categories cats gf with
          | .error e => .error e
          | .ok rest => .ok ((cat, sw_default_font cat) :: rest)

/-- Inner loop of the validation pass: for each required field missing
from the category value, assign the per-field default
(`processed_fonts[font_type][field] = get_default_fonts()[font_type][field]`). -/
def sw_fill_fields : List String → String → PyVal → Except Unit PyVal
  | [], _, v => .ok v
  | fl :: fls, cat, v =>
      match pyIn fl v with
      | .error e => .error e
      | .ok b =>
        match (if b then .ok v else pySetItem fl (sw_default_field cat fl) v) with
        | .error e => .error e
        | .ok v' => sw_fill_fields fls cat v'

/-- Outer loop of the validation pass: iterate the keys of
`processed_fonts` in insertion order, updating each entry in place. -/
def sw_fill_all : List (String × PyVal) → Except Unit (List (String × PyVal))
  | [] => .ok []
  | (cat, v) :: rest =>
      match sw_fill_fields required_fields cat v with
      | .error e => .error e
      | .ok v' =>
        match sw_fill_all rest with
        | .error e => .error e
        | .ok rest' => .ok ((cat, v') :: rest')

/-- URL loop of `process_fonts`: one `family=...:wght@...` fragment per
entry other than `google_fonts_url` (the guard is in the source even
though the key is only added afterwards).  `font['family'].replace`
requires a string (`AttributeError` otherwise); the weight is rendered by
the f-string with `str()`. -/
def sw_font_parts : List (String × PyVal) → Except Unit (List String)
  | [] => .ok []
  | (cat, font) :: rest =>
      if cat = "google_fonts_url" then sw_font_parts rest
      else
        match pyGetItem ("family") font with
        | .error e => .error e
        | .ok fam =>
          match fam with
          | .str famS =>
            (match pyGetItem ("weight") font with
             | .error e => .error e
             | .ok w =>
               match sw_font_parts rest with
               | .error e => .error e
               | .ok rest' =>
                   .ok (("family="
                       ++ String.mk (famS.toList.map (fun c => if c = ' ' then '+' else c))
                       ++ ":wght@" ++ pyStr w)
                     :: rest'))
          | _ => .error ()

/-- Main path of `process_fonts` after the falsy/JSON-string
preprocessing. -/
def sw_process_fonts_main (gf : PyVal) : Except Unit PyVal :=
  match sw_build_categories font_categories gf with
  | .error e => .error e
  | .ok m =>
    match sw_fill_all m with
    | .error e => .error e
    | .ok m' =>
      match sw_font_parts m' with
      | .error e => .error e
      | .ok parts =>
          .ok (.dict (assocSet m' ("google_fonts_url")
            (.str ("https://fonts.googleapis.com/css2?" ++ String.intercalate ("&") parts))))

/-- Body of the `try` block of `process_fonts`.  A falsy argument and a
string that fails to parse as JSON both return the defaults directly
inside the `try`. -/
def sw_process_fonts_body (generated : PyVal) : Except Unit PyVal :=
  if ¬ generated.truthy then .ok sw_get_default_fonts
  else
    match generated with
    | .str s =>
        match jsonParse s with
        | some w => sw_process_fonts_main w
        | none => .ok sw_get_default_fonts
    | v => sw_process_fonts_main v

/-- `process_fonts` from src/sentient_weather.py: any exception in the
body falls back to `get_default_fonts()`. -/
def process_fonts (generated : PyVal) : PyVal :=
  match sw_process_fonts_body generated with
  | .ok r => r
  | .error _ => sw_get_default_fonts

/-- Shape invariant of a processed font configuration: a dict carrying a
`google_fonts_url` entry and, for each of the four categories, a dict
entry containing the four descriptor fields. -/
def fontsWellShaped (v : PyVal) : Bool :=
  match v with
  | .dict m =>
      (lookupAssoc m ("google_fonts_url")).isSome &&
      font_categories.all (fun cat =>
        match lookupAssoc m cat with
        | some (.dict f) => required_fields.all (fun fl => (lookupAssoc f fl).isSome)
        | _ => false)
  | _ => false

/-! ## `get_css_variables` and the notebook font defaults
(src/notebook_functions.py) -/

/-- `get_default_fonts` from src/notebook_functions.py (the variant with
`url_params` and no `google_fonts_url`); it is what the exception path of
`get_css_variables` falls back to. -/
def nb_get_default_fonts : PyVal :=
  .dict
    [ ("primary_heading", .dict
        [ ("family", .str ("Playfair Display")), ("fallback", .str ("serif")),
          ("weight", .str ("700")), ("style", .str ("normal")),
          ("url_params", .str ("wght@700")) ]),
      ("secondary_heading", .dict
        [ ("family", .str ("Montserrat")), ("fallback", .str ("sans-serif")),
          ("weight", .str ("600")), ("style", .str ("normal")),
          ("url_params", .str ("wght@600")) ]),
      ("body_text", .dict
        [ ("family", .str ("Open Sans")), ("fallback", .str ("sans-serif")),
          ("weight", .str ("400")), ("style", .str ("normal")),
          ("url_params", .str ("wght@400")) ]),
      ("accent_text", .dict
        [ ("family", .str ("Roboto Condensed")), ("fallback", .str ("sans-serif")),
          ("weight", .str ("400")), ("style", .str ("normal")),
          ("url_params", .str ("wght@400")) ]) ]

/-- Loop body of `get_css_variables`: three CSS variables per non-URL
entry.  Accessing a missing descriptor key, or testing `' ' in family` on
a non-string family, raises and discards everything accumulated. -/
def css_var_entries : List (String × PyVal) → Except Unit (List (String × PyVal))
  | [] => .ok []
  | (cat, font) :: rest =>
      if cat = "google_fonts_url" then css_var_entries rest
      else
        match pyGetItem ("family") font with
        | .error e => .error e
        | .ok fam =>
          match fam with
          | .str famS =>
            (match pyGetItem ("fallback") font with
             | .error e => .error e
             | .ok fb =>
               match pyGetItem ("weight") font with
               | .error e => .error e
               | .ok w =>
                 match pyGetItem ("style") font with
                 | .error e => .error e
                 | .ok st =>
                   match css_var_entries rest with
                   | .error e => .error e
                   | .ok rest' =>
                     let varName := "--font-"
                       ++ String.mk (cat.toList.map (fun c => if c = '_' then '-' else c))
                     let famQ :=
                       if famS.toList.contains ' ' then
                         String.singleton (Char.ofNat 39) ++ famS
                           ++ String.singleton (Char.ofNat 39)
                       else famS
                     .ok ((varName, .str (famQ ++ ", " ++ pyStr fb)) ::
                          (varName ++ "-weight", w) ::
                          (varName ++ "-style", st) :: rest'))
          | _ => .error ()

/-- `get_css_variables(get_default_fonts())`: the source's one-level
recursive fallback, which cannot fail on the fixed notebook defaults. -/
def default_css_variables : List (String × PyVal) :=
  match nb_get_default_fonts with
  | .dict m => ((css_var_entries m).toOption).getD []
  | _ => []

/-- `get_css_variables` from src/notebook_functions.py.  A falsy argument
takes the `if not fonts` branch; `.items()` on a non-dict or any failure
in the loop is caught and falls back to the defaults' variables. -/
def get_css_variables (fonts : PyVal) : List (String × PyVal) :=
  if ¬ fonts.truthy then default_css_variables
  else
    match fonts with
    | .dict m =>
        match css_var_entries m with
        | .ok v => v
        | .error _ => default_css_variables
    | _ => default_css_variables

/-! ## `generate_font_recommendations` validation
(src/notebook_functions.py) -/

/-- Inner property check: `if prop not in font_data[category]` raises a
`ValueError` on the first missing property. -/
def nb_check_props : List String → PyVal → Except Unit Unit
  | [], _ => .ok ()
  | p :: ps, v =>
      match pyIn p v with
      | .error e => .error e
      | .ok b => if b then nb_check_props ps v else .error ()

/-- Category/property validation loop of `generate_font_recommendations`
(`required_categories` and `required_properties` are the same four
categories and four descriptor fields). -/
def nb_check_categories : List String → PyVal → Except Unit Unit
  | [], _ => .ok ()
  | c :: cs, fd =>
      match pyIn c fd with
      | .error e => .error e
      | .ok b =>
        if ¬ b then .error ()
        else
          match pyGetItem c fd with
          | .error e => .error e
          | .ok v =>
            match nb_check_props required_fields v with
            | .error e => .error e
            | .ok _ => nb_check_categories cs fd

/-- `generate_font_recommendations`: the Bedrock call and JSON parsing are
the oracle argument (`none` models `ClientError` or a parse failure); a
validation failure is caught by the blanket `except` and returns `None`,
otherwise the parsed font data is returned unchanged. -/
def generate_font_recommendations (api : Option PyVal) : Option PyVal :=
  match api with
  | none => none
  | some fd =>
      match nb_check_categories font_categories fd with
      | .ok _ => some fd
      | .error _ => none

/-! ## Colors: `rgb_to_hex`, palette validation, `process_colors`
(src/notebook_functions.py `generate_color_palette` and
src/sentient_weather.py `get_default_colors` / `process_colors`) -/

/-- The character set of `rgb_str.strip('rgb()')`: Python `strip` removes
leading and trailing characters drawn from this set. -/
def rgbStripSet : List Char := ['r', 'g', 'b', '(', ')']

/-- Python `s.strip(chars)`: drop characters of the set from both ends. -/
def pyStripChars (cs : List Char) (xs : List Char) : List Char :=
  (((xs.dropWhile (fun c => cs.contains c)).reverse).dropWhile
    (fun c => cs.contains c)).reverse

/-- Python `s.split(',')`: split at every comma, keeping empty pieces. -/
def splitOnChar (c : Char) : List Char → List (List Char)
  | [] => [[]]
  | x :: xs =>
      if x = c then [] :: splitOnChar c xs
      else
        match splitOnChar c xs with
        | g :: gs => (x :: g) :: gs
        | [] => [[x]]

/-- Python `s.strip()`: drop whitespace from both ends. -/
def pyWsStrip (xs : List Char) : List Char :=
  (((xs.dropWhile Char.isWhitespace).reverse).dropWhile Char.isWhitespace).reverse

def digitsToNat (ds : List Char) : Nat :=
  ds.foldl (fun a c => a * 10 + (c.toNat - 48)) 0

/-- Python `int(x.strip())` on the pieces of the RGB triple: optional
surrounding whitespace, optional sign, decimal digits.  (CPython's
underscore digit grouping and non-ASCII digits are not modelled; no string
this program produces uses them.) -/
def parsePyInt (xs : List Char) : Option Int :=
  let ys := pyWsStrip xs
  match ys with
  | '-' :: ds =>
      if !ds.isEmpty && ds.all Char.isDigit then some (-(digitsToNat ds : Int)) else none
  | '+' :: ds =>
      if !ds.isEmpty && ds.all Char.isDigit then some ((digitsToNat ds : Int)) else none
  | ds =>
      if !ds.isEmpty && ds.all Char.isDigit then some ((digitsToNat ds : Int)) else none

/-- Lowercase hexadecimal digits of a natural number (`['0']` for 0), as
produced by Python's `x` format code. -/
def hexDigits (n : Nat) : List Char := Nat.toDigits 16 n

/-- Python `'{:02x}'.format(n)`: lowercase hex, zero-padded between the
sign and the digits to a total width of 2. -/
def pyFormat02x (n : Int) : List Char :=
  if n < 0 then
    let ds := hexDigits n.natAbs
    '-' :: (List.replicate (2 - (ds.length + 1)) '0' ++ ds)
  else
    let ds := hexDigits n.toNat
    List.replicate (2 - ds.length) '0' ++ ds

/-- `rgb_to_hex` from `generate_color_palette`: strings starting with `#`
pass through; otherwise strip `rgb()` characters, split on commas, parse
every piece with `int`, and format the first three values (extra values
are ignored by `format`; fewer than three, or any unparsable piece, raise
and become a `ValueError`). -/
def rgb_to_hex (s : String) : Except Unit String :=
  if s.toList.head? = some '#' then .ok s
  else
    let parts := splitOnChar ',' (pyStripChars rgbStripSet s.toList)
    match parts.mapM parsePyInt with
    | none => .error ()
    | some vs =>
      match vs with
      | a :: b :: c :: _ =>
          .ok (String.mk ('#' :: (pyFormat02x a ++ pyFormat02x b ++ pyFormat02x c)))
      | _ => .error ()

/-- `get_default_colors` from src/sentient_weather.py. -/
def get_default_colors : PyVal :=
  .dict
    [ ("color_page_background", .str ("#F5E6D3")),
      ("color_tiles_container", .str ("#FFB366")),
      ("color_tiles", .str ("#FFFFFF")),
      ("color_tile_heading", .str ("#994D00")),
      ("color_tile_temp_high", .str ("#CC3300")),
      ("color_tile_temp_low", .str ("#336699")),
      ("color_tile_weather_details", .str ("#4D4D4D")) ]

/-- `required_colors` from `generate_color_palette`. -/
def required_colors : List String :=
  [ "color_page_background", "color_tiles_container", "color_tiles",
    "color_tile_heading", "color_tile_temp_high", "color_tile_temp_low",
    "color_tile_weather_details" ]

/-- Validation loop of `generate_color_palette`: each required color must
be present (`ValueError` otherwise), be a string (`ValueError` otherwise),
and is normalized in place with `rgb_to_hex`. -/
def nb_check_colors : List String → PyVal → Except Unit PyVal
  | [], colors => .ok colors
  | c :: cs, colors =>
      match pyIn c colors with
      | .error e => .error e
      | .ok b =>
        if ¬ b then .error ()
        else
          match pyGetItem c colors with
          | .error e => .error e
          | .ok v =>
            match v with
            | .str s =>
              (match rgb_to_hex s with
               | .error e => .error e
               | .ok h =>
                 match pySetItem c (.str h) colors with
                 | .error e => .error e
                 | .ok colors' => nb_check_colors cs colors')
            | _ => .error ()

/-- `generate_color_palette` from src/notebook_functions.py.  The Bedrock
call and the JSON parsing of the completion are the oracle argument
(`none` models `ClientError` or an exception before validation); the
weather-field precondition checks hold by construction for the typed
weather data the route passes.  Any validation failure is caught by the
blanket `except` and returns `None`. -/
def generate_color_palette (api : Option PyVal) : Option PyVal :=
  match api with
  | none => none
  | some colors => (nb_check_colors required_colors colors).toOption

/-- `process_colors` from src/sentient_weather.py.  Dicts pass through;
non-empty strings are parsed as JSON (any parse failure is caught and
falls back to the defaults); everything else — including the `TextBlock`
probing on values without a `text` attribute, and the `IndexError` on
empty strings/lists — ends in `get_default_colors()`. -/
def process_colors (v : PyVal) : PyVal :=
  match v with
  | .dict kvs => .dict kvs
  | .str s =>
      if s.toList.isEmpty then get_default_colors
      else (jsonParse s).getD get_default_colors
  | _ => get_default_colors

/-! ## Weather data and `get_weather_description`
(src/notebook_functions.py) -/

structure CurrentWeather where
  temperature : Int
  is_day : Int
  precipitation : Int
  weather_code : Int
  cloud_cover : Int
  wind_speed : Int

structure ForecastDay where
  weather_code : Int
  temperature_max : Int
  temperature_min : Int
  precipitation_sum : Int
  precipitation_hours : Int
  precipitation_probability : Int
  wind_speed_max : Int

/-- The dict returned by `get_weather_data` (readings are floats in the
source, modelled as `Int`; no claim computes with them). -/
structure WeatherData where
  current : CurrentWeather
  forecast : List ForecastDay

/-- The `weather_codes` lookup table of `get_weather_description`. -/
def weather_codes : List (Int × String) :=
  [ (0, "Clear sky"), (1, "Mainly clear"), (2, "Partly cloudy"), (3, "Overcast"),
    (45, "Fog"), (48, "Depositing rime fog"),
    (51, "Drizzle: Light intensity"), (53, "Drizzle: Moderate intensity"),
    (55, "Drizzle: Dense intensity"), (56, "Freezing Drizzle: Light intensity"),
    (57, "Freezing Drizzle: Dense intensity"), (61, "Rain: Slight intensity"),
    (63, "Rain: Moderate intensity"), (65, "Rain: Heavy intensity"),
    (66, "Freezing Rain: Light intensity"), (67, "Freezing Rain: Heavy intensity"),
    (71, "Snow fall: Slight intensity"), (73, "Snow fall: Moderate intensity"),
    (75, "Snow fall: Heavy intensity"), (77, "Snow grains"),
    (80, "Rain showers: Slight"), (81, "Rain showers: Moderate"),
    (82, "Rain showers: Violent"), (85, "Snow showers slight"),
    (86, "Snow showers Heavy"), (95, "Thunderstorm: Slight or moderate"),
    (96, "Thunderstorm with slight hail"), (99, "Thunderstorm with heavy hail") ]

/-- `get_weather_description`: `weather_codes.get(int(code), 'Unknown')`. -/
def get_weather_description (code : Int) : String :=
  match weather_codes.find? (fun p => decide (p.1 = code)) with
  | some p => p.2
  | none => "Unknown"

/-! ## The POST route handler `index` (src/sentient_weather.py)

The handler is modelled as a function of the external collaborators
(geocoding, weather API, three Bedrock generators).  Besides the rendered
response it returns the log of outbound collaborator calls it dispatched,
each tagged with the time it was issued; the handler contains no waiting
or scheduling construct of any kind, so every call is dispatched at the
time `t` at which the request is processed. -/

/-- The outbound collaborator calls the POST handler can dispatch. -/
inductive ExtCall where
  | geocode : ExtCall
  | weather : ExtCall
  | palette : ExtCall
  | fonts : ExtCall
  | image : ExtCall
deriving DecidableEq

/-- The external collaborators of the handler.  `none` models the
collaborator failing (exception caught inside the callee, or an error
return).  `paletteApi`/`fontsApi` yield the JSON value parsed from the
model completion; `imageApi` is `generate_city_image`'s result at route
granularity (its internals are modelled separately on `ImgFS` below). -/
structure Collab where
  geocode : String → Option (Int × Int)
  weather : Int × Int → Option WeatherData
  paletteApi : String → WeatherData → String → Option PyVal
  fontsApi : String → WeatherData → Option PyVal
  imageApi : String → String → Option String

/-- A rendered response: either an error page (with default styling) or
the composed weather page. -/
inductive Render where
  | errorPage (error : String) (fonts : PyVal)
      (font_css_vars : List (String × PyVal)) (colors : PyVal) : Render
  | page (city : String) (weather_data : WeatherData)
      (weather_description : String) (colors : PyVal) (fonts : PyVal)
      (font_css_vars : List (String × PyVal)) (image_path : Option String) : Render

def Render.isPage : Render → Bool
  | .page _ _ _ _ _ _ _ => true
  | _ => false

def Render.pageColors : Render → Option PyVal
  | .page _ _ _ c _ _ _ => some c
  | _ => none

def Render.pageFonts : Render → Option PyVal
  | .page _ _ _ _ f _ _ => some f
  | _ => none

def Render.pageImage : Render → Option (Option String)
  | .page _ _ _ _ _ _ ip => some ip
  | _ => none

def pyOfOption : Option PyVal → PyVal
  | none => .null
  | some v => v

/-- The POST branch of `index`.  The three generation `try` blocks cannot
in fact raise (each callee catches its own exceptions and the processing
helpers are total), so each reduces to its success path over the callee's
`Option` result; the image failure path sets `image_path = None`. -/
def indexPost (o : Collab) (city : String) (t : Nat) :
    Render × List (ExtCall × Nat) :=
  match o.geocode city with
  | none =>
      (.errorPage ("City not found") sw_get_default_fonts
        (get_css_variables sw_get_default_fonts) get_default_colors,
       [(.geocode, t)])
  | some coords =>
    match o.weather coords with
    | none =>
        (.errorPage ("Could not fetch weather data") sw_get_default_fonts
          (get_css_variables sw_get_default_fonts) get_default_colors,
         [(.geocode, t), (.weather, t)])
    | some wd =>
      let wdesc := get_weather_description wd.current.weather_code
      let colors :=
        process_colors (pyOfOption (generate_color_palette (o.paletteApi city wd wdesc)))
      let rawFonts := generate_font_recommendations (o.fontsApi city wd)
      let fonts :=
        match rawFonts with
        | none => sw_get_default_fonts
        | some v => if v.truthy then process_fonts v else sw_get_default_fonts
      let cssVars := get_css_variables fonts
      let ip := o.imageApi city wdesc
      (.page city wd wdesc colors fonts cssVars ip,
       [(.geocode, t), (.weather, t), (.palette, t), (.fonts, t), (.image, t)])

/-- Sequential processing of a list of POST requests `(city, time)` by the
application, concatenating the per-request call logs.  There is no state
carried from one request to the next: the handler has no response cache
and no rate-limiter state. -/
def processPosts (o : Collab) : List (String × Nat) → List Render × List (ExtCall × Nat)
  | [] => ([], [])
  | (c, t) :: rest =>
      let r := indexPost o c t
      let rs := processPosts o rest
      (r.1 :: rs.1, r.2 ++ rs.2)

/-! ## The on-disk image cache: `generate_city_image`
(src/notebook_functions.py)

The `static/images` directory is modelled as an explicit state: the PNG
files with their creation times, and the JSON sidecar records with their
contents.  `os.path.exists` is evaluated against that state.  The Bedrock
SDXL call is a boolean oracle (`false` models `ClientError`). -/

/-- Python `s.lstrip(chars)`: drop LEADING characters drawn from the
character SET of `chars` (not the prefix `chars` itself). -/
def pyLstrip (s : String) (chars : String) : String :=
  String.mk (s.toList.dropWhile (fun c => chars.toList.contains c))

/-- Python `str.lower()` (ASCII; the cities and weather descriptions this
program builds keys from are ASCII). -/
def strLower (s : String) : String := String.mk (s.toList.map Char.toLower)

/-- Split a character list at every character satisfying `p`, keeping
empty pieces — the behavior of `re`-style splitting on single
characters. -/
def splitAtPred (p : Char → Bool) : List Char → List (List Char)
  | [] => [[]]
  | c :: cs =>
      if p c then [] :: splitAtPred p cs
      else
        match splitAtPred p cs with
        | g :: gs => (c :: g) :: gs
        | [] => [[c]]

/-- `werkzeug.utils.secure_filename` on POSIX: `os.sep` replaced by a
space, whitespace runs joined with `_` (Python `"_".join(s.split())`
discards the empty pieces), characters outside `[A-Za-z0-9_.-]` removed
(the NFKD/ASCII-encode step simply drops the other characters), then `.`
and `_` stripped from both ends; the Windows-only device-name branch does
not apply. -/
def secure_filename (s : String) : String :=
  let s1 := s.toList.map (fun c => if c = '/' then ' ' else c)
  let parts := (splitAtPred Char.isWhitespace s1).filter (fun p => !p.isEmpty)
  let joined := List.intercalate ['_'] parts
  let filtered :=
    joined.filter (fun c => c.isAlphanum || c = '_' || c = '.' || c = '-')
  String.mk (pyStripChars ['.', '_'] filtered)

/-- The JSON sidecar contents written next to each generated image. -/
structure CacheData where
  timestamp : Nat
  image_path : String
  city : String
  weather : String
deriving DecidableEq

/-- The state of the `static/images` directory: PNG files with creation
times, and sidecar JSON files with their recorded contents. -/
structure ImgFS where
  images : List (String × Nat)
  sidecars : List (String × CacheData)
deriving DecidableEq

/-- Stable insertion, newest first (ties keep encounter order). -/
def insertByCtime (x : String × Nat) : List (String × Nat) → List (String × Nat)
  | [] => [x]
  | y :: ys => if x.2 ≥ y.2 then x :: y :: ys else y :: insertByCtime x ys

/-- Python `sorted(..., key=ctime, reverse=True)`: stable sort by creation
time, newest first. -/
def sortByCtimeDesc (l : List (String × Nat)) : List (String × Nat) :=
  l.foldr insertByCtime []

/-- `os.path.splitext(os.path.basename(img))[0] + ".json"` for a `.png`
file name. -/
def pngSidecarName (img : String) : String :=
  String.mk (img.toList.take (img.toList.length - 4)) ++ ".json"

/-- `os.path.exists` relative to the project root: the `static` and
`static/images` directories exist, plus every stored image and sidecar
file.  (`os.path.join('static', '')` yields `static/`.) -/
def relExists (fs : ImgFS) (rel : String) : Bool :=
  decide (rel = "static") || decide (rel = "static/images") || decide (rel = "static/") ||
  fs.images.any (fun p => decide (rel = "static/images/" ++ p.1)) ||
  fs.sidecars.any (fun p => decide (rel = "static/images/" ++ p.1))

/-- `generate_city_image`: cached-image lookup, eviction of all images
beyond the 20 newest (run before the new image is written, and only on
the regeneration path), then generation and persistence.  Returns the
served path (or `None` on Bedrock failure) together with the new
directory state. -/
def generate_city_image (fs : ImgFS) (now : Nat) (bedrockOk : Bool)
    (city weather : String) : Option String × ImgFS :=
  let cache_key := secure_filename (strLower city) ++ "_" ++ secure_filename (strLower weather)
  let cache_file := cache_key ++ ".json"
  let cachedHit : Option String :=
    match lookupAssoc fs.sidecars cache_file with
    | some data =>
        if (now : Int) - (data.timestamp : Int) < 86400 then
          let staticImagePath := "static/" ++ pyLstrip data.image_path ("/static/")
          if relExists fs staticImagePath then some data.image_path else none
        else none
    | none => none
  match cachedHit with
  | some p => (some p, fs)
  | none =>
      let filename := cache_key ++ "_" ++ toString now ++ ".png"
      let existing := sortByCtimeDesc fs.images
      let fs1 :=
        if existing.length > 20 then
          (existing.drop 20).foldl
            (fun s old =>
              { images := s.images.filter (fun p => !decide (p.1 = old.1)),
                sidecars :=
                  s.sidecars.filter (fun p => !decide (p.1 = pngSidecarName old.1)) })
            fs
        else fs
      if bedrockOk then
        let relative_path := "/static/images/" ++ filename
        (some relative_path,
         { images := (filename, now) :: fs1.images.filter (fun p => !decide (p.1 = filename)),
           sidecars := assocSet fs1.sidecars cache_file
             ⟨now, relative_path, city, weather⟩ })
      else (none, fs1)

/-- A sequence of `Put`s: successive `generate_city_image` calls (all
cache misses generating fresh images) over `(city, time)` pairs with a
fixed weather description, starting from an empty directory. -/
def runPuts (weather : String) (reqs : List (String × Nat)) : ImgFS :=
  reqs.foldl (fun fs r => (generate_city_image fs r.2 true r.1 weather).2) ⟨[], []⟩

/-! ## Association-list lemmas -/

theorem lookupAssoc_assocSet_self {α : Type} (l : List (String × α)) (k : String) (v : α) :
    lookupAssoc (assocSet l k v) k = some v := by
  induction l with
  | nil => simp [assocSet, lookupAssoc]
  | cons p rest ih =>
      obtain ⟨k', v'⟩ := p
      by_cases h : k' = k
      · simp [assocSet, h, lookupAssoc]
      · simp [assocSet, h, lookupAssoc, ih]

theorem lookupAssoc_assocSet_ne {α : Type} (l : List (String × α)) (k k' : String) (v : α)
    (h : k ≠ k') : lookupAssoc (assocSet l k v) k' = lookupAssoc l k' := by
  induction l with
  | nil => simp [assocSet, lookupAssoc, h]
  | cons p rest ih =>
      obtain ⟨k0, v0⟩ := p
      by_cases h0 : k0 = k
      · subst h0
        simp [assocSet, lookupAssoc, h]
      · simp [assocSet, h0, lookupAssoc, ih]

theorem lookupAssoc_isSome_assocSet {α : Type} (l : List (String × α)) (k k' : String)
    (v : α) (h : (lookupAssoc l k').isSome) :
    (lookupAssoc (assocSet l k v) k').isSome := by
  by_cases hk : k = k'
  · subst hk
    simp [lookupAssoc_assocSet_self]
  · rw [lookupAssoc_assocSet_ne l k k' v hk]
    exact h

theorem mem_of_lookupAssoc {α : Type} {l : List (String × α)} {k : String} {v : α}
    (h : lookupAssoc l k = some v) : (k, v) ∈ l := by
  induction l with
  | nil => simp [lookupAssoc] at h
  | cons p rest ih =>
      obtain ⟨k', v'⟩ := p
      by_cases hk : k' = k
      · subst hk
        simp [lookupAssoc] at h
        subst h
        exact List.mem_cons_self _ _
      · simp [lookupAssoc, hk] at h
        exact List.mem_cons_of_mem _ (ih h)

theorem lookupAssoc_isSome_of_mem_keys {α : Type} {l : List (String × α)} {k : String}
    (h : k ∈ l.map Prod.fst) : (lookupAssoc l k).isSome := by
  induction l with
  | nil => simp at h
  | cons p rest ih =>
      obtain ⟨k', v'⟩ := p
      by_cases hk : k' = k
      · simp [lookupAssoc, hk]
      · rw [List.map_cons, List.mem_cons] at h
        rcases h with h | h
        · exact absurd h.symm hk
        · simp [lookupAssoc, hk]
          exact ih h

theorem any_fst_eq_lookup {α : Type} (l : List (String × α)) (k : String) :
    l.any (fun p => decide (p.1 = k)) = (lookupAssoc l k).isSome := by
  induction l with
  | nil => rfl
  | cons p rest ih =>
      obtain ⟨k', v'⟩ := p
      by_cases hk : k' = k
      · simp [lookupAssoc, hk]
      · simp [lookupAssoc, hk, ih]

theorem pyIn_dict (kvs : List (String × PyVal)) (k : String) :
    pyIn k (.dict kvs) = .ok ((lookupAssoc kvs k).isSome) := by
  simp [pyIn, any_fst_eq_lookup]

/-! ## Shape lemmas for `process_fonts` -/

theorem pyGetItem_ok_dict {k : String} {v w : PyVal} (h : pyGetItem k v = .ok w) :
    ∃ kvs, v = .dict kvs ∧ lookupAssoc kvs k = some w := by
  cases v with
  | dict kvs =>
      refine ⟨kvs, rfl, ?_⟩
      cases hl : lookupAssoc kvs k with
      | none => rw [pyGetItem, hl] at h; simp at h
      | some u => rw [pyGetItem, hl] at h; simp at h; rw [h]
  | null => simp [pyGetItem] at h
  | pbool b => simp [pyGetItem] at h
  | int n => simp [pyGetItem] at h
  | str s => simp [pyGetItem] at h
  | list xs => simp [pyGetItem] at h

theorem sw_fill_fields_dict (fls : List String) (cat : String)
    (kvs : List (String × PyVal)) :
    ∃ kvs', sw_fill_fields fls cat (.dict kvs) = .ok (.dict kvs') ∧
      (∀ fl ∈ fls, (lookupAssoc kvs' fl).isSome) ∧
      (∀ k x, lookupAssoc kvs k = some x → lookupAssoc kvs' k = some x) ∧
      (∀ fl ∈ fls, lookupAssoc kvs fl = none →
        lookupAssoc kvs' fl = some (sw_default_field cat fl)) := by
  induction fls generalizing kvs with
  | nil => exact ⟨kvs, rfl, by simp, fun k x h => h, by simp⟩
  | cons fl fls ih =>
      cases hb : (lookupAssoc kvs fl).isSome with
      | true =>
          obtain ⟨kvs', hrun, hfls, hpres, hdflt⟩ := ih kvs
          refine ⟨kvs', ?_, ?_, hpres, ?_⟩
          · simp [sw_fill_fields, pyIn_dict, hb, hrun]
          · intro fl' hfl'
            rcases List.mem_cons.mp hfl' with rfl | hfl'
            · obtain ⟨x, hx⟩ := Option.isSome_iff_exists.mp hb
              rw [hpres fl' x hx]
              rfl
            · exact hfls fl' hfl'
          · intro fl' hfl' hn
            rcases List.mem_cons.mp hfl' with rfl | hfl'
            · rw [hn] at hb
              simp at hb
            · exact hdflt fl' hfl' hn
      | false =>
          have hnone : lookupAssoc kvs fl = none := by
            cases hx : lookupAssoc kvs fl with
            | none => rfl
            | some x => rw [hx] at hb; simp at hb
          obtain ⟨kvs', hrun, hfls, hpres, hdflt⟩ :=
            ih (assocSet kvs fl (sw_default_field cat fl))
          refine ⟨kvs', ?_, ?_, ?_, ?_⟩
          · simp [sw_fill_fields, pyIn_dict, hb, pySetItem, hrun]
          · intro fl' hfl'
            rcases List.mem_cons.mp hfl' with rfl | hfl'
            · rw [hpres fl' (sw_default_field cat fl') (lookupAssoc_assocSet_self _ _ _)]
              rfl
            · exact hfls fl' hfl'
          · intro k x hk
            have hne : fl ≠ k := fun he => by rw [← he, hnone] at hk; exact Option.noConfusion hk
            refine hpres k x ?_
            rw [lookupAssoc_assocSet_ne _ _ _ _ hne]
            exact hk
          · intro fl' hfl' hn
            rcases List.mem_cons.mp hfl' with rfl | hfl'
            · exact hpres fl' (sw_default_field cat fl') (lookupAssoc_assocSet_self _ _ _)
            · by_cases hffl : fl = fl'
              · subst hffl
                exact hpres fl (sw_default_field cat fl) (lookupAssoc_assocSet_self _ _ _)
              · refine hdflt fl' hfl' ?_
                rw [lookupAssoc_assocSet_ne _ _ _ _ hffl]
                exact hn

theorem sw_fill_fields_ok_dict {fls : List String} {cat : String} {v v' : PyVal}
    (h : sw_fill_fields fls cat v = .ok v') (kvs' : List (String × PyVal))
    (hv' : v' = .dict kvs') : ∃ kvs, v = .dict kvs := by
  induction fls generalizing v with
  | nil =>
      simp [sw_fill_fields] at h
      subst h
      exact ⟨kvs', hv'⟩
  | cons fl fls ih =>
      cases v with
      | dict kvs => exact ⟨kvs, rfl⟩
      | list xs =>
          simp only [sw_fill_fields, pyIn] at h
          cases hany : xs.any (fun v => match v with | .str s => decide (s = fl) | _ => false) with
          | true =>
              rw [hany] at h
              simp at h
              obtain ⟨kvs, hk⟩ := ih h
              exact PyVal.noConfusion hk
          | false =>
              rw [hany] at h
              simp [pySetItem] at h
      | str s =>
          simp only [sw_fill_fields, pyIn] at h
          cases hany : listSubstr fl.toList s.toList with
          | true =>
              rw [hany] at h
              simp at h
              obtain ⟨kvs, hk⟩ := ih h
              exact PyVal.noConfusion hk
          | false =>
              rw [hany] at h
              simp [pySetItem] at h
      | null => simp [sw_fill_fields, pyIn] at h
      | pbool b => simp [sw_fill_fields, pyIn] at h
      | int n => simp [sw_fill_fields, pyIn] at h

theorem sw_fill_all_keys {m m' : List (String × PyVal)} (h : sw_fill_all m = .ok m') :
    m'.map Prod.fst = m.map Prod.fst := by
  induction m generalizing m' with
  | nil =>
      simp [sw_fill_all] at h
      subst h
      rfl
  | cons p rest ih =>
      obtain ⟨cat, v⟩ := p
      simp only [sw_fill_all] at h
      cases h1 : sw_fill_fields required_fields cat v with
      | error e => rw [h1] at h; simp at h
      | ok v' =>
          rw [h1] at h
          cases h2 : sw_fill_all rest with
          | error e => rw [h2] at h; simp at h
          | ok rest' =>
              rw [h2] at h
              simp at h
              subst h
              simp [ih h2]

theorem sw_fill_all_lookup {m m' : List (String × PyVal)} (h : sw_fill_all m = .ok m')
    (c : String) {v' : PyVal} (hl : lookupAssoc m' c = some v') :
    ∃ v, lookupAssoc m c = some v ∧ sw_fill_fields required_fields c v = .ok v' := by
  induction m generalizing m' with
  | nil =>
      simp [sw_fill_all] at h
      subst h
      simp [lookupAssoc] at hl
  | cons p rest ih =>
      obtain ⟨cat, w⟩ := p
      simp only [sw_fill_all] at h
      cases h1 : sw_fill_fields required_fields cat w with
      | error e => rw [h1] at h; simp at h
      | ok w' =>
          rw [h1] at h
          cases h2 : sw_fill_all rest with
          | error e => rw [h2] at h; simp at h
          | ok rest' =>
              rw [h2] at h
              simp at h
              subst h
              by_cases hc : cat = c
              · subst hc
                simp [lookupAssoc] at hl
                subst hl
                exact ⟨w, by simp [lookupAssoc], h1⟩
              · simp only [lookupAssoc, if_neg hc] at hl ⊢
                exact ih h2 hl

theorem sw_fill_all_lookup_fwd {m m' : List (String × PyVal)} (h : sw_fill_all m = .ok m')
    {c : String} {v : PyVal} (hl : lookupAssoc m c = some v) :
    ∃ v', lookupAssoc m' c = some v' ∧ sw_fill_fields required_fields c v = .ok v' := by
  induction m generalizing m' with
  | nil => simp [lookupAssoc] at hl
  | cons p rest ih =>
      obtain ⟨cat, w⟩ := p
      simp only [sw_fill_all] at h
      cases h1 : sw_fill_fields required_fields cat w with
      | error e => rw [h1] at h; simp at h
      | ok w' =>
          rw [h1] at h
          cases h2 : sw_fill_all rest with
          | error e => rw [h2] at h; simp at h
          | ok rest' =>
              rw [h2] at h
              simp at h
              subst h
              by_cases hc : cat = c
              · subst hc
                simp [lookupAssoc] at hl
                subst hl
                exact ⟨w', by simp [lookupAssoc], h1⟩
              · simp [lookupAssoc, hc] at hl ⊢
                exact ih h2 hl

theorem sw_font_parts_dict {m : List (String × PyVal)} {parts : List String}
    (h : sw_font_parts m = .ok parts) :
    ∀ p ∈ m, p.1 ≠ "google_fonts_url" → ∃ kvs, p.2 = .dict kvs := by
  induction m generalizing parts with
  | nil =>
      intro p hp
      simp at hp
  | cons q rest ih =>
      obtain ⟨cat, font⟩ := q
      intro p hp hne
      simp only [sw_font_parts] at h
      by_cases hcat : cat = "google_fonts_url"
      · rw [if_pos hcat] at h
        rcases List.mem_cons.mp hp with rfl | hp
        · exact absurd hcat hne
        · exact ih h p hp hne
      · rw [if_neg hcat] at h
        cases h1 : pyGetItem ("family") font with
        | error e => rw [h1] at h; simp at h
        | ok fam =>
            rw [h1] at h
            obtain ⟨kvsF, hkvsF, _⟩ := pyGetItem_ok_dict h1
            cases fam with
            | str famS =>
                cases h2 : pyGetItem ("weight") font with
                | error e => rw [h2] at h; simp at h
                | ok w =>
                    rw [h2] at h
                    cases h3 : sw_font_parts rest with
                    | error e => rw [h3] at h; simp at h
                    | ok rest' =>
                        rcases List.mem_cons.mp hp with rfl | hp
                        · exact ⟨kvsF, hkvsF⟩
                        · exact ih h3 p hp hne
            | null => simp at h
            | pbool b => simp at h
            | int n => simp at h
            | list xs => simp at h
            | dict kvs => simp at h

theorem sw_build_categories_keys {cs : List String} {gf : PyVal}
    {m : List (String × PyVal)} (h : sw_build_categories cs gf = .ok m) :
    m.map Prod.fst = cs := by
  induction cs generalizing m with
  | nil =>
      simp [sw_build_categories] at h
      subst h
      rfl
  | cons c cs ih =>
      simp only [sw_build_categories] at h
      cases h1 : pyIn c gf with
      | error e => rw [h1] at h; simp at h
      | ok b =>
          simp only [h1] at h
          cases b with
          | true =>
              cases h2 : pyGetItem c gf with
              | error e => simp only [h2] at h; simp at h
              | ok cv =>
                  simp only [h2] at h
                  cases h3 : pyCopy cv with
                  | error e => simp only [h3] at h; simp at h
                  | ok v =>
                      simp only [h3] at h
                      cases h4 : sw_build_categories cs gf with
                      | error e => simp only [h4] at h; simp at h
                      | ok rest =>
                          simp only [h4] at h
                          simp at h
                          subst h
                          simp [ih h4]
          | false =>
              cases h4 : sw_build_categories cs gf with
              | error e => simp only [h4] at h; simp at h
              | ok rest =>
                  simp only [h4] at h
                  simp at h
                  subst h
                  simp [ih h4]

theorem sw_build_categories_lookup_default {cs : List String} {gf : PyVal}
    {m : List (String × PyVal)} {c : String} (h : sw_build_categories cs gf = .ok m)
    (hc : c ∈ cs) (hb : pyIn c gf = .ok false) :
    lookupAssoc m c = some (sw_default_font c) := by
  induction cs generalizing m with
  | nil => simp at hc
  | cons c0 cs ih =>
      simp only [sw_build_categories] at h
      cases h1 : pyIn c0 gf with
      | error e => rw [h1] at h; simp at h
      | ok b =>
          simp only [h1] at h
          cases b with
          | true =>
              cases h2 : pyGetItem c0 gf with
              | error e => simp only [h2] at h; simp at h
              | ok cv =>
                  simp only [h2] at h
                  cases h3 : pyCopy cv with
                  | error e => simp only [h3] at h; simp at h
                  | ok v =>
                      simp only [h3] at h
                      cases h4 : sw_build_categories cs gf with
                      | error e => simp only [h4] at h; simp at h
                      | ok rest =>
                          simp only [h4] at h
                          simp at h
                          subst h
                          by_cases hcc : c0 = c
                          · subst hcc
                            rw [h1] at hb
                            simp at hb
                          · simp only [lookupAssoc, if_neg hcc]
                            rcases List.mem_cons.mp hc with rfl | hc
                            · exact absurd rfl hcc
                            · exact ih h4 hc
          | false =>
              cases h4 : sw_build_categories cs gf with
              | error e => simp only [h4] at h; simp at h
              | ok rest =>
                  simp only [h4] at h
                  simp at h
                  subst h
                  by_cases hcc : c0 = c
                  · subst hcc
                    simp [lookupAssoc]
                  · simp only [lookupAssoc, if_neg hcc]
                    rcases List.mem_cons.mp hc with rfl | hc
                    · exact absurd rfl hcc
                    · exact ih h4 hc

theorem sw_fill_default {cat : String} (h : cat ∈ font_categories) :
    sw_fill_fields required_fields cat (sw_default_font cat) = .ok (sw_default_font cat) := by
  fin_cases h <;> rfl

theorem default_fonts_wellShaped : fontsWellShaped sw_get_default_fonts = true := rfl

theorem sw_main_wellShaped {gf r : PyVal} (h : sw_process_fonts_main gf = .ok r) :
    fontsWellShaped r = true := by
  simp only [sw_process_fonts_main] at h
  cases h1 : sw_build_categories font_categories gf with
  | error e => rw [h1] at h; simp at h
  | ok m =>
    simp only [h1] at h
    cases h2 : sw_fill_all m with
    | error e => simp only [h2] at h; simp at h
    | ok m' =>
      simp only [h2] at h
      cases h3 : sw_font_parts m' with
      | error e => simp only [h3] at h; simp at h
      | ok parts =>
        simp only [h3] at h
        simp at h
        subst h
        have hkeys : m'.map Prod.fst = font_categories :=
          (sw_fill_all_keys h2).trans (sw_build_categories_keys h1)
        simp only [fontsWellShaped, Bool.and_eq_true]
        constructor
        · rw [lookupAssoc_assocSet_self]
          rfl
        · rw [List.all_eq_true]
          intro cat hcat
          have hne : cat ≠ "google_fonts_url" := by
            fin_cases hcat <;> decide
        -- the stored categories are untouched by adding the URL entry
          rw [lookupAssoc_assocSet_ne _ _ _ _ (fun hh => hne hh.symm)]
          have hmem : cat ∈ m'.map Prod.fst := by
            rw [hkeys]; exact hcat
          obtain ⟨v', hv'⟩ := Option.isSome_iff_exists.mp
            (lookupAssoc_isSome_of_mem_keys hmem)
          rw [hv']
          obtain ⟨v, _, hfill⟩ := sw_fill_all_lookup h2 cat hv'
          obtain ⟨kvsP, hkvsP⟩ :=
            sw_font_parts_dict h3 (cat, v') (mem_of_lookupAssoc hv') hne
          obtain ⟨kvs, hkvs⟩ := sw_fill_fields_ok_dict hfill kvsP hkvsP
          subst hkvs
          obtain ⟨kvs'', hrun, hflds, _, _⟩ := sw_fill_fields_dict required_fields cat kvs
          rw [hfill] at hrun
          have hvv : v' = PyVal.dict kvs'' := by
            injection hrun
          subst hvv
          rw [List.all_eq_true]
          intro fl hfl
          exact hflds fl hfl

theorem process_fonts_wellShaped_of_body {v r : PyVal}
    (h : sw_process_fonts_body v = .ok r) : fontsWellShaped r = true := by
  simp only [sw_process_fonts_body] at h
  by_cases ht : v.truthy
  · rw [if_neg (by simp [ht])] at h
    cases v with
    | str s =>
        cases hp : jsonParse s with
        | some w =>
            simp [hp] at h
            exact sw_main_wellShaped h
        | none =>
            simp [hp] at h
            subst h
            exact default_fonts_wellShaped
    | null => exact sw_main_wellShaped h
    | pbool b => exact sw_main_wellShaped h
    | int n => exact sw_main_wellShaped h
    | list xs => exact sw_main_wellShaped h
    | dict kvs => exact sw_main_wellShaped h
  · rw [if_pos (by simp [ht])] at h
    simp at h
    subst h
    exact default_fonts_wellShaped

/-- Core of claim C10: `process_fonts` always yields a well-shaped font
configuration. -/
theorem process_fonts_wellShaped (v : PyVal) :
    fontsWellShaped (process_fonts v) = true := by
  simp only [process_fonts]
  cases hbody : sw_process_fonts_body v with
  | error e => exact default_fonts_wellShaped
  | ok r => exact process_fonts_wellShaped_of_body hbody

/-! ## Shape lemmas for the palette pipeline -/

/-- Completeness of a palette: a dict carrying all 7 required color keys. -/
def paletteComplete (v : PyVal) : Bool :=
  match v with
  | .dict m => required_colors.all (fun c => (lookupAssoc m c).isSome)
  | _ => false

theorem sw_default_lookup {cat : String} (h : cat ∈ font_categories) :
    ∃ m, sw_get_default_fonts = PyVal.dict m ∧
      lookupAssoc m cat = some (sw_default_font cat) := by
  fin_cases h <;> exact ⟨_, rfl, rfl⟩

theorem nb_check_colors_pres {cs : List String} {colors out : PyVal}
    (h : nb_check_colors cs colors = .ok out) :
    (∀ k kvs, colors = .dict kvs → (lookupAssoc kvs k).isSome →
      ∃ kvsO, out = .dict kvsO ∧ (lookupAssoc kvsO k).isSome) ∧
    (∀ k, k ∈ cs →
      ∃ kvsO, out = .dict kvsO ∧ (lookupAssoc kvsO k).isSome) := by
  induction cs generalizing colors with
  | nil =>
      simp [nb_check_colors] at h
      subst h
      constructor
      · intro k kvs hkv hp
        exact ⟨kvs, hkv, hp⟩
      · intro k hk
        simp at hk
  | cons c cs ih =>
      simp only [nb_check_colors] at h
      cases h1 : pyIn c colors with
      | error e => rw [h1] at h; simp at h
      | ok b =>
          simp only [h1] at h
          cases b with
          | false => simp at h
          | true =>
              simp only [if_neg (by simp : ¬ ¬ true = true)] at h
              cases h2 : pyGetItem c colors with
              | error e => simp only [h2] at h; simp at h
              | ok v =>
                  simp only [h2] at h
                  obtain ⟨kvs, hkvs, hlv⟩ := pyGetItem_ok_dict h2
                  cases v with
                  | str s =>
                      cases h3 : rgb_to_hex s with
                      | error e => simp only [h3] at h; simp at h
                      | ok hx =>
                          simp only [h3] at h
                          subst hkvs
                          simp only [pySetItem] at h
                          obtain ⟨pres, alls⟩ := ih h
                          constructor
                          · intro k kvs' hkv hp
                            injection hkv with hkv
                            subst hkv
                            exact pres k _ rfl
                              (lookupAssoc_isSome_assocSet _ _ _ _ hp)
                          · intro k hk
                            rcases List.mem_cons.mp hk with rfl | hk
                            · refine pres k _ rfl ?_
                              rw [lookupAssoc_assocSet_self]
                              rfl
                            · exact alls k hk
                  | null => simp at h
                  | pbool b0 => simp at h
                  | int n => simp at h
                  | list xs => simp at h
                  | dict kvs0 => simp at h

theorem generate_color_palette_complete {api : Option PyVal} {out : PyVal}
    (h : generate_color_palette api = some out) : paletteComplete out = true := by
  cases api with
  | none => simp [generate_color_palette] at h
  | some colors =>
      simp only [generate_color_palette] at h
      cases hck : nb_check_colors required_colors colors with
      | error e => rw [hck] at h; simp [Except.toOption] at h
      | ok out' =>
          rw [hck] at h
          simp [Except.toOption] at h
          subst h
          obtain ⟨_, alls⟩ := nb_check_colors_pres hck
          obtain ⟨kvsO, hout, _⟩ :=
            alls ("color_page_background") (by simp [required_colors])
          subst hout
          simp only [paletteComplete, List.all_eq_true]
          intro c hc
          obtain ⟨kvsO', hout', hp⟩ := alls c hc
          injection hout' with hh
          subst hh
          exact hp

theorem nb_check_colors_missing {cs : List String} {kvs : List (String × PyVal)}
    {c : String} (hc : c ∈ cs) (hmiss : lookupAssoc kvs c = none) :
    nb_check_colors cs (.dict kvs) = .error () := by
  induction cs generalizing kvs with
  | nil => simp at hc
  | cons c0 cs ih =>
      by_cases hcc : c0 = c
      · subst hcc
        simp [nb_check_colors, pyIn_dict, hmiss]
      · have hc' : c ∈ cs := by
          rcases List.mem_cons.mp hc with rfl | hcm
          · exact absurd rfl hcc
          · exact hcm
        simp only [nb_check_colors, pyIn_dict]
        cases hb : (lookupAssoc kvs c0).isSome with
        | false => simp
        | true =>
            obtain ⟨v, hv⟩ := Option.isSome_iff_exists.mp hb
            cases v with
            | str s =>
                cases h3 : rgb_to_hex s with
                | error e =>
                    cases e
                    simp [pyGetItem, hv, h3]
                | ok hx =>
                    have hrec := @ih (assocSet kvs c0 (PyVal.str hx)) hc'
                      (by rw [lookupAssoc_assocSet_ne kvs c0 c (PyVal.str hx) hcc]
                          exact hmiss)
                    simp [pyGetItem, hv, h3, pySetItem, hrec]
            | null => simp [pyGetItem, hv]
            | pbool b0 => simp [pyGetItem, hv]
            | int n => simp [pyGetItem, hv]
            | list xs => simp [pyGetItem, hv]
            | dict kvs0 => simp [pyGetItem, hv]

theorem nb_check_colors_nonstr {cs : List String} {kvs : List (String × PyVal)}
    {c : String} {w : PyVal} (hc : c ∈ cs) (hw : lookupAssoc kvs c = some w)
    (hns : ∀ s, w ≠ .str s) : nb_check_colors cs (.dict kvs) = .error () := by
  induction cs generalizing kvs with
  | nil => simp at hc
  | cons c0 cs ih =>
      simp only [nb_check_colors, pyIn_dict]
      cases hb : (lookupAssoc kvs c0).isSome with
      | false => simp
      | true =>
          obtain ⟨v, hv⟩ := Option.isSome_iff_exists.mp hb
          by_cases hcc : c0 = c
          · subst hcc
            rw [hv] at hw
            injection hw with hw
            subst hw
            cases v with
            | str s => exact absurd rfl (hns s)
            | null => simp [pyGetItem, hv]
            | pbool b0 => simp [pyGetItem, hv]
            | int n => simp [pyGetItem, hv]
            | list xs => simp [pyGetItem, hv]
            | dict kvs0 => simp [pyGetItem, hv]
          · have hc' : c ∈ cs := by
              rcases List.mem_cons.mp hc with rfl | hcm
              · exact absurd rfl hcc
              · exact hcm
            cases v with
            | str s =>
                cases h3 : rgb_to_hex s with
                | error e =>
                    cases e
                    simp [pyGetItem, hv, h3]
                | ok hx =>
                    have hrec := @ih (assocSet kvs c0 (PyVal.str hx)) hc'
                      (by rw [lookupAssoc_assocSet_ne kvs c0 c (PyVal.str hx) hcc]
                          exact hw)
                    simp [pyGetItem, hv, h3, pySetItem, hrec]
            | null => simp [pyGetItem, hv]
            | pbool b0 => simp [pyGetItem, hv]
            | int n => simp [pyGetItem, hv]
            | list xs => simp [pyGetItem, hv]
            | dict kvs0 => simp [pyGetItem, hv]

theorem generate_font_recommendations_truthy {x : Option PyVal} {fv : PyVal}
    (h : generate_font_recommendations x = some fv) : fv.truthy = true := by
  cases x with
  | none => simp [generate_font_recommendations] at h
  | some fd =>
      simp only [generate_font_recommendations] at h
      cases hv : nb_check_categories font_categories fd with
      | error e => rw [hv] at h; simp at h
      | ok u =>
          rw [hv] at h
          simp at h
          subst h
          simp only [font_categories, nb_check_categories] at hv
          cases h1 : pyIn ("primary_heading") fd with
          | error e => rw [h1] at hv; simp at hv
          | ok b =>
              simp only [h1] at hv
              cases b with
              | false => simp at hv
              | true =>
                  simp only [if_neg (by simp : ¬ ¬ true = true)] at hv
                  cases h2 : pyGetItem ("primary_heading") fd with
                  | error e => simp only [h2] at hv; simp at hv
                  | ok v =>
                      obtain ⟨kvs, hkvs, hlv⟩ := pyGetItem_ok_dict h2
                      subst hkvs
                      cases kvs with
                      | nil => simp [lookupAssoc] at hlv
                      | cons p rest => simp [PyVal.truthy]

theorem process_fonts_missing_category {kvs : List (String × PyVal)} {cat : String}
    (hcat : cat ∈ font_categories) (hmiss : lookupAssoc kvs cat = none) :
    ∃ m, process_fonts (.dict kvs) = .dict m ∧
      lookupAssoc m cat = some (sw_default_font cat) := by
  cases hbody : sw_process_fonts_body (.dict kvs) with
  | error e =>
      obtain ⟨m, hm, hl⟩ := sw_default_lookup hcat
      refine ⟨m, ?_, hl⟩
      rw [process_fonts, hbody, hm]
  | ok r =>
      by_cases ht : (PyVal.dict kvs).truthy
      · have hmain : sw_process_fonts_main (.dict kvs) = .ok r := by
          rw [sw_process_fonts_body, if_neg (by simp [ht])] at hbody
          · exact hbody
          · intro s hss
            exact PyVal.noConfusion hss
        simp only [sw_process_fonts_main] at hmain
        cases h1 : sw_build_categories font_categories (.dict kvs) with
        | error e => rw [h1] at hmain; simp at hmain
        | ok m =>
          simp only [h1] at hmain
          cases h2 : sw_fill_all m with
          | error e => simp only [h2] at hmain; simp at hmain
          | ok m' =>
            simp only [h2] at hmain
            cases h3 : sw_font_parts m' with
            | error e => simp only [h3] at hmain; simp at hmain
            | ok parts =>
              simp only [h3] at hmain
              simp at hmain
              have hne : cat ≠ "google_fonts_url" := by
                fin_cases hcat <;> decide
              have hbf : pyIn cat (.dict kvs) = .ok false := by
                rw [pyIn_dict, hmiss]
                rfl
              have hmd := sw_build_categories_lookup_default h1 hcat hbf
              obtain ⟨v', hv', hfill⟩ := sw_fill_all_lookup_fwd h2 hmd
              have hfd := sw_fill_default hcat
              rw [hfd] at hfill
              have hvd : v' = sw_default_font cat := by
                injection hfill with hh
                exact hh.symm
              subst hvd
              refine ⟨assocSet m' ("google_fonts_url")
                (.str ("https://fonts.googleapis.com/css2?"
                  ++ String.intercalate ("&") parts)), ?_, ?_⟩
              · rw [process_fonts, hbody, ← hmain]
              · rw [lookupAssoc_assocSet_ne _ _ _ _ (fun hh => hne hh.symm)]
                exact hv'
      · have hr : r = sw_get_default_fonts := by
          rw [sw_process_fonts_body, if_pos (by simp [ht])] at hbody
          · injection hbody with hh
            exact hh.symm
          · intro s hss
            exact PyVal.noConfusion hss
        subst hr
        obtain ⟨m, hm, hl⟩ := sw_default_lookup hcat
        refine ⟨m, ?_, hl⟩
        rw [process_fonts, hbody, hm]

theorem sw_default_font_field {cat fl : String} (hcat : cat ∈ font_categories)
    (hfl : fl ∈ required_fields) :
    ∃ d, sw_default_font cat = .dict d ∧
      lookupAssoc d fl = some (sw_default_field cat fl) := by
  fin_cases hcat <;> fin_cases hfl <;> exact ⟨_, rfl, rfl⟩

theorem sw_build_categories_lookup_dict {cs : List String} {gf : PyVal}
    {m : List (String × PyVal)} {c : String} {fv : List (String × PyVal)}
    (h : sw_build_categories cs gf = .ok m) (hc : c ∈ cs)
    (hin : pyIn c gf = .ok true) (hget : pyGetItem c gf = .ok (.dict fv)) :
    lookupAssoc m c = some (.dict fv) := by
  induction cs generalizing m with
  | nil => simp at hc
  | cons c0 cs ih =>
      simp only [sw_build_categories] at h
      cases h1 : pyIn c0 gf with
      | error e => rw [h1] at h; simp at h
      | ok b =>
          simp only [h1] at h
          cases b with
          | true =>
              cases h2 : pyGetItem c0 gf with
              | error e => simp only [h2] at h; simp at h
              | ok cv =>
                  simp only [h2] at h
                  cases h3 : pyCopy cv with
                  | error e => simp only [h3] at h; simp at h
                  | ok v =>
                      simp only [h3] at h
                      cases h4 : sw_build_categories cs gf with
                      | error e => simp only [h4] at h; simp at h
                      | ok rest =>
                          simp only [h4] at h
                          simp at h
                          subst h
                          by_cases hcc : c0 = c
                          · subst hcc
                            rw [h2] at hget
                            injection hget with hget
                            subst hget
                            simp only [pyCopy] at h3
                            injection h3 with h3
                            subst h3
                            simp [lookupAssoc]
                          · simp only [lookupAssoc, if_neg hcc]
                            rcases List.mem_cons.mp hc with rfl | hc
                            · exact absurd rfl hcc
                            · exact ih h4 hc
          | false =>
              cases h4 : sw_build_categories cs gf with
              | error e => simp only [h4] at h; simp at h
              | ok rest =>
                  simp only [h4] at h
                  simp at h
                  subst h
                  by_cases hcc : c0 = c
                  · subst hcc
                    rw [h1] at hin
                    simp at hin
                  · simp only [lookupAssoc, if_neg hcc]
                    rcases List.mem_cons.mp hc with rfl | hc
                    · exact absurd rfl hcc
                    · exact ih h4 hc

theorem process_fonts_missing_field {kvs : List (String × PyVal)} {cat fl : String}
    (hcat : cat ∈ font_categories) (hfl : fl ∈ required_fields)
    (hmiss : lookupAssoc kvs cat = none ∨
      ∃ fv, lookupAssoc kvs cat = some (.dict fv) ∧ lookupAssoc fv fl = none) :
    ∃ m f, process_fonts (.dict kvs) = .dict m ∧
      lookupAssoc m cat = some (.dict f) ∧
      lookupAssoc f fl = some (sw_default_field cat fl) := by
  rcases hmiss with hmc | ⟨fv, hcv, hfm⟩
  · obtain ⟨m, hm, hl⟩ := process_fonts_missing_category hcat hmc
    obtain ⟨d, hd, hdf⟩ := sw_default_font_field hcat hfl
    exact ⟨m, d, hm, by rw [hl, hd], hdf⟩
  · cases hbody : sw_process_fonts_body (.dict kvs) with
    | error e =>
        obtain ⟨md, hmd, hld⟩ := sw_default_lookup hcat
        obtain ⟨d, hd, hdf⟩ := sw_default_font_field hcat hfl
        refine ⟨md, d, ?_, ?_, hdf⟩
        · rw [process_fonts, hbody, hmd]
        · rw [hld, hd]
    | ok r =>
        by_cases ht : (PyVal.dict kvs).truthy
        · have hmain : sw_process_fonts_main (.dict kvs) = .ok r := by
            rw [sw_process_fonts_body, if_neg (by simp [ht])] at hbody
            · exact hbody
            · intro s hss
              exact PyVal.noConfusion hss
          simp only [sw_process_fonts_main] at hmain
          cases h1 : sw_build_categories font_categories (.dict kvs) with
          | error e => rw [h1] at hmain; simp at hmain
          | ok m =>
            simp only [h1] at hmain
            cases h2 : sw_fill_all m with
            | error e => simp only [h2] at hmain; simp at hmain
            | ok m' =>
              simp only [h2] at hmain
              cases h3 : sw_font_parts m' with
              | error e => simp only [h3] at hmain; simp at hmain
              | ok parts =>
                simp only [h3] at hmain
                simp at hmain
                have hne : cat ≠ "google_fonts_url" := by
                  fin_cases hcat <;> decide
                have hbt : pyIn cat (.dict kvs) = .ok true := by
                  rw [pyIn_dict, hcv]
                  rfl
                have hget : pyGetItem cat (.dict kvs) = .ok (.dict fv) := by
                  simp [pyGetItem, hcv]
                have hmd := sw_build_categories_lookup_dict h1 hcat hbt hget
                obtain ⟨v', hv', hfill⟩ := sw_fill_all_lookup_fwd h2 hmd
                obtain ⟨kvs'', hrun, _, _, hdflt⟩ :=
                  sw_fill_fields_dict required_fields cat fv
                rw [hfill] at hrun
                have hvd : v' = PyVal.dict kvs'' := by
                  injection hrun
                subst hvd
                refine ⟨assocSet m' ("google_fonts_url")
                  (.str ("https://fonts.googleapis.com/css2?"
                    ++ String.intercalate ("&") parts)), kvs'', ?_, ?_, ?_⟩
                · rw [process_fonts, hbody, ← hmain]
                · rw [lookupAssoc_assocSet_ne _ _ _ _ (fun hh => hne hh.symm)]
                  exact hv'
                · exact hdflt fl hfl hfm
        · exfalso
          simp only [PyVal.truthy, Bool.not_eq_true] at ht
          have hkvs : kvs = [] := by
            cases kvs with
            | nil => rfl
            | cons p rest => simp at ht
          rw [hkvs] at hcv
          simp [lookupAssoc] at hcv

/-! ## Concrete collaborator instances used by witnesses and
counterexamples -/

def wd0 : WeatherData :=
  { current := { temperature := 20, is_day := 1, precipitation := 0,
                 weather_code := 0, cloud_cover := 10, wind_speed := 5 },
    forecast := [] }

/-- A valid palette completion (one value in `rgb(r,g,b)` form). -/
def paletteJson : PyVal :=
  .dict [ ("color_page_background", .str ("#111111")),
          ("color_tiles_container", .str ("#222222")),
          ("color_tiles", .str ("#333333")),
          ("color_tile_heading", .str ("#444444")),
          ("color_tile_temp_high", .str ("#555555")),
          ("color_tile_temp_low", .str ("rgb(1,2,3)")),
          ("color_tile_weather_details", .str ("#777777")) ]

/-- `paletteJson` after `generate_color_palette`'s in-place normalization. -/
def processedPalette : List (String × PyVal) :=
  [ ("color_page_background", .str ("#111111")),
    ("color_tiles_container", .str ("#222222")),
    ("color_tiles", .str ("#333333")),
    ("color_tile_heading", .str ("#444444")),
    ("color_tile_temp_high", .str ("#555555")),
    ("color_tile_temp_low", .str ("#010203")),
    ("color_tile_weather_details", .str ("#777777")) ]

/-- A palette completion missing 6 of the 7 required keys. -/
def badPaletteJson : PyVal := .dict [("color_page_background", .str ("#111111"))]

/-- A valid font completion. -/
def fontsJson : PyVal :=
  .dict [ ("primary_heading", .dict
            [ ("family", .str ("Arial")), ("weight", .str ("400")),
              ("style", .str ("normal")), ("fallback", .str ("sans-serif")) ]),
          ("secondary_heading", .dict
            [ ("family", .str ("Arial")), ("weight", .str ("400")),
              ("style", .str ("normal")), ("fallback", .str ("sans-serif")) ]),
          ("body_text", .dict
            [ ("family", .str ("Arial")), ("weight", .str ("400")),
              ("style", .str ("normal")), ("fallback", .str ("sans-serif")) ]),
          ("accent_text", .dict
            [ ("family", .str ("Arial")), ("weight", .str ("400")),
              ("style", .str ("normal")), ("fallback", .str ("sans-serif")) ]) ]

/-- Collaborators that all succeed. -/
def oAll : Collab :=
  { geocode := fun _ => some (48, 2),
    weather := fun _ => some wd0,
    paletteApi := fun _ _ _ => some paletteJson,
    fontsApi := fun _ _ => some fontsJson,
    imageApi := fun _ _ => some ("/static/images/p.png") }

def oImgFail : Collab := { oAll with imageApi := fun _ _ => none }

def oFontFail : Collab := { oAll with fontsApi := fun _ _ => none }

def oPalFail : Collab := { oAll with paletteApi := fun _ _ _ => none }

def oBadPal : Collab := { oAll with paletteApi := fun _ _ _ => some badPaletteJson }

/-! ## Claim C10 -/

/-- C10: for every input value whatsoever (None, malformed JSON string,
non-dict, partial dict, dict with non-dict category values),
`process_fonts` returns without raising, and its result contains all four
font categories each carrying the four descriptor fields plus a
`google_fonts_url` key; a missing category is filled with the built-in
default entry, and a descriptor field missing from a category's dict is
filled with the built-in default value `get_default_fonts()[cat][field]`
for that entry. -/
theorem c10_process_fonts_total_shape :
    (∀ v : PyVal, fontsWellShaped (process_fonts v) = true) ∧
    (∀ (kvs : List (String × PyVal)) (cat : String), cat ∈ font_categories →
      lookupAssoc kvs cat = none →
      ∃ m, process_fonts (.dict kvs) = .dict m ∧
        lookupAssoc m cat = some (sw_default_font cat)) ∧
    (∀ (kvs : List (String × PyVal)) (cat fl : String), cat ∈ font_categories →
      fl ∈ required_fields →
      (lookupAssoc kvs cat = none ∨
        ∃ fv, lookupAssoc kvs cat = some (.dict fv) ∧ lookupAssoc fv fl = none) →
      ∃ m f, process_fonts (.dict kvs) = .dict m ∧
        lookupAssoc m cat = some (.dict f) ∧
        lookupAssoc f fl = some (sw_default_field cat fl)) :=
  ⟨process_fonts_wellShaped,
   fun _ _ hcat hmiss => process_fonts_missing_category hcat hmiss,
   fun _ _ _ hcat hfl hmiss => process_fonts_missing_field hcat hfl hmiss⟩

theorem c10_witness :
    fontsWellShaped (process_fonts (.str ("this is not json"))) = true ∧
    fontsWellShaped (process_fonts .null) = true ∧
    fontsWellShaped (process_fonts (.dict [("primary_heading", .int 3)])) = true ∧
    (∃ m, process_fonts (.dict [("body_text", .dict [("family", .str ("Lato"))])])
        = .dict m ∧
      lookupAssoc m ("primary_heading") = some (sw_default_font ("primary_heading"))) ∧
    (∃ m f, process_fonts (.dict [("body_text", .dict [("family", .str ("Lato"))])])
        = .dict m ∧
      lookupAssoc m ("body_text") = some (.dict f) ∧
      lookupAssoc f ("weight") = some (sw_default_field ("body_text") ("weight"))) :=
  ⟨c10_process_fonts_total_shape.1 _,
   c10_process_fonts_total_shape.1 _,
   c10_process_fonts_total_shape.1 _,
   c10_process_fonts_total_shape.2.1 _ _ (by decide) rfl,
   c10_process_fonts_total_shape.2.2 _ _ _ (by decide) (by decide)
     (Or.inr ⟨[("family", .str ("Lato"))], rfl, rfl⟩)⟩

/-! ## Claim C8 -/

/-- C8: a generated palette response missing any of the 7 required color
keys (or carrying a non-string value for one of them) is rejected, and the
composed page response carries the fixed 7-entry default palette
instead. -/
theorem c8_invalid_palette_rejected (o : Collab) (city : String) (t : Nat)
    (coords : Int × Int) (wd : WeatherData) (kvs : List (String × PyVal)) (c : String)
    (hg : o.geocode city = some coords) (hw : o.weather coords = some wd)
    (hapi : o.paletteApi city wd (get_weather_description wd.current.weather_code)
      = some (.dict kvs))
    (hc : c ∈ required_colors)
    (hbad : lookupAssoc kvs c = none ∨
      ∃ w, lookupAssoc kvs c = some w ∧ ∀ s, w ≠ .str s) :
    Render.pageColors (indexPost o city t).1 = some get_default_colors := by
  have hgen : generate_color_palette
      (o.paletteApi city wd (get_weather_description wd.current.weather_code)) = none := by
    rw [hapi]
    simp only [generate_color_palette]
    rcases hbad with hmiss | ⟨w, hw', hns⟩
    · rw [nb_check_colors_missing hc hmiss]
      rfl
    · rw [nb_check_colors_nonstr hc hw' hns]
      rfl
  simp only [indexPost, hg, hw, hgen]
  rfl

theorem c8_witness :
    oBadPal.geocode ("Paris") = some (48, 2) ∧
    oBadPal.weather (48, 2) = some wd0 ∧
    oBadPal.paletteApi ("Paris") wd0 (get_weather_description wd0.current.weather_code)
      = some badPaletteJson ∧
    lookupAssoc [("color_page_background", PyVal.str ("#111111"))] ("color_tiles")
      = none ∧
    Render.pageColors (indexPost oBadPal ("Paris") 0).1 = some get_default_colors :=
  ⟨rfl, rfl, rfl, rfl,
   c8_invalid_palette_rejected oBadPal ("Paris") 0 (48, 2) wd0
     [("color_page_background", PyVal.str ("#111111"))] ("color_tiles")
     rfl rfl rfl (by decide) (Or.inl rfl)⟩

/-! ## Claim C1 -/

/-- C1 is false as stated: a request on which only image generation fails
still reaches the composed page render (a "successfully composed page
response"), yet its image-path field is null. -/
theorem c1_counterexample :
    Render.isPage (indexPost oImgFail ("Paris") 0).1 = true ∧
    Render.pageImage (indexPost oImgFail ("Paris") 0).1 = some none :=
  ⟨rfl, rfl⟩

/-- C1 (amended): every composed page render carries a complete palette
(real or default), a well-shaped font configuration, CSS variables derived
from those fonts, and an image-path field equal to the image generator's
result — which is null exactly when image generation failed. -/
theorem c1_amended_page_fields (o : Collab) (city : String) (t : Nat)
    (coords : Int × Int) (wd : WeatherData)
    (hg : o.geocode city = some coords) (hw : o.weather coords = some wd) :
    ∃ colors fonts ip,
      (indexPost o city t).1 =
        Render.page city wd (get_weather_description wd.current.weather_code)
          colors fonts (get_css_variables fonts) ip ∧
      paletteComplete colors = true ∧
      fontsWellShaped fonts = true ∧
      ip = o.imageApi city (get_weather_description wd.current.weather_code) := by
  simp only [indexPost, hg, hw]
  refine ⟨_, _, _, rfl, ?_, ?_, rfl⟩
  · cases hgen : generate_color_palette
        (o.paletteApi city wd (get_weather_description wd.current.weather_code)) with
    | none => rfl
    | some out =>
        have hcomp := generate_color_palette_complete hgen
        cases out with
        | dict kvsO => exact hcomp
        | null => simp [paletteComplete] at hcomp
        | pbool b => simp [paletteComplete] at hcomp
        | int n => simp [paletteComplete] at hcomp
        | str s => simp [paletteComplete] at hcomp
        | list xs => simp [paletteComplete] at hcomp
  · cases hfr : generate_font_recommendations (o.fontsApi city wd) with
    | none => exact default_fonts_wellShaped
    | some fv =>
        by_cases ht : fv.truthy
        · simp only [if_pos ht]
          exact process_fonts_wellShaped fv
        · simp only [if_neg ht]
          exact default_fonts_wellShaped

theorem c1_amended_witness :
    oAll.geocode ("Paris") = some (48, 2) ∧
    oAll.weather (48, 2) = some wd0 ∧
    (∃ colors fonts ip,
      (indexPost oAll ("Paris") 0).1 =
        Render.page ("Paris") wd0
          (get_weather_description wd0.current.weather_code)
          colors fonts (get_css_variables fonts) ip ∧
      paletteComplete colors = true ∧
      fontsWellShaped fonts = true ∧
      ip = oAll.imageApi ("Paris") (get_weather_description wd0.current.weather_code)) :=
  ⟨rfl, rfl, c1_amended_page_fields oAll ("Paris") 0 (48, 2) wd0 rfl rfl⟩

/-! ## Claim C7 -/

/-- C7: when exactly one of the three generators fails, that component
alone falls back (default palette, default font set, or null image path
respectively), while the other two results are carried unchanged into the
composed page. -/
theorem c7_independent_fallbacks (o : Collab) (city : String) (t : Nat)
    (coords : Int × Int) (wd : WeatherData)
    (hg : o.geocode city = some coords) (hw : o.weather coords = some wd) :
    (∀ fv p,
      generate_color_palette (o.paletteApi city wd
        (get_weather_description wd.current.weather_code)) = none →
      generate_font_recommendations (o.fontsApi city wd) = some fv →
      o.imageApi city (get_weather_description wd.current.weather_code) = some p →
      (indexPost o city t).1 =
        Render.page city wd (get_weather_description wd.current.weather_code)
          get_default_colors (process_fonts fv)
          (get_css_variables (process_fonts fv)) (some p)) ∧
    (∀ kvs p,
      generate_color_palette (o.paletteApi city wd
        (get_weather_description wd.current.weather_code)) = some (.dict kvs) →
      generate_font_recommendations (o.fontsApi city wd) = none →
      o.imageApi city (get_weather_description wd.current.weather_code) = some p →
      (indexPost o city t).1 =
        Render.page city wd (get_weather_description wd.current.weather_code)
          (.dict kvs) sw_get_default_fonts
          (get_css_variables sw_get_default_fonts) (some p)) ∧
    (∀ kvs fv,
      generate_color_palette (o.paletteApi city wd
        (get_weather_description wd.current.weather_code)) = some (.dict kvs) →
      generate_font_recommendations (o.fontsApi city wd) = some fv →
      o.imageApi city (get_weather_description wd.current.weather_code) = none →
      (indexPost o city t).1 =
        Render.page city wd (get_weather_description wd.current.weather_code)
          (.dict kvs) (process_fonts fv)
          (get_css_variables (process_fonts fv)) none) := by
  refine ⟨?_, ?_, ?_⟩
  · intro fv p hpal hfo himg
    have ht := generate_font_recommendations_truthy hfo
    simp only [indexPost, hg, hw, hpal, hfo, himg, if_pos ht]
    rfl
  · intro kvs p hpal hfo himg
    simp only [indexPost, hg, hw, hpal, hfo, himg]
    rfl
  · intro kvs fv hpal hfo himg
    have ht := generate_font_recommendations_truthy hfo
    simp only [indexPost, hg, hw, hpal, hfo, himg, if_pos ht]
    rfl

theorem c7_witness :
    (oFontFail.geocode ("Paris") = some (48, 2) ∧
     oFontFail.weather (48, 2) = some wd0 ∧
     generate_color_palette (oFontFail.paletteApi ("Paris") wd0
       (get_weather_description wd0.current.weather_code))
         = some (.dict processedPalette) ∧
     generate_font_recommendations (oFontFail.fontsApi ("Paris") wd0) = none ∧
     (indexPost oFontFail ("Paris") 0).1 =
       Render.page ("Paris") wd0 (get_weather_description wd0.current.weather_code)
         (.dict processedPalette) sw_get_default_fonts
         (get_css_variables sw_get_default_fonts) (some ("/static/images/p.png"))) ∧
    (oPalFail.geocode ("Paris") = some (48, 2) ∧
     generate_color_palette (oPalFail.paletteApi ("Paris") wd0
       (get_weather_description wd0.current.weather_code)) = none ∧
     generate_font_recommendations (oPalFail.fontsApi ("Paris") wd0) = some fontsJson ∧
     (indexPost oPalFail ("Paris") 0).1 =
       Render.page ("Paris") wd0 (get_weather_description wd0.current.weather_code)
         get_default_colors (process_fonts fontsJson)
         (get_css_variables (process_fonts fontsJson)) (some ("/static/images/p.png"))) ∧
    (oImgFail.imageApi ("Paris")
       (get_weather_description wd0.current.weather_code) = none ∧
     (indexPost oImgFail ("Paris") 0).1 =
       Render.page ("Paris") wd0 (get_weather_description wd0.current.weather_code)
         (.dict processedPalette) (process_fonts fontsJson)
         (get_css_variables (process_fonts fontsJson)) none) :=
  ⟨⟨rfl, rfl, rfl, rfl,
    (c7_independent_fallbacks oFontFail ("Paris") 0 (48, 2) wd0 rfl rfl).2.1
      processedPalette ("/static/images/p.png") rfl rfl rfl⟩,
   ⟨rfl, rfl, rfl,
    (c7_independent_fallbacks oPalFail ("Paris") 0 (48, 2) wd0 rfl rfl).1
      fontsJson ("/static/images/p.png") rfl rfl rfl⟩,
   ⟨rfl,
    (c7_independent_fallbacks oImgFail ("Paris") 0 (48, 2) wd0 rfl rfl).2.2
      processedPalette fontsJson rfl rfl rfl⟩⟩

/-! ## Claim C2 -/

/-- C2 is false as stated: there is no response cache anywhere in the
handler.  Two POSTs for the same city 10 seconds apart each dispatch the
full call sequence — the second POST re-invokes the geocoder, the weather
fetch and all three generators. -/
theorem c2_counterexample :
    (processPosts oAll [(("Paris"), 0), (("Paris"), 10)]).2 =
      [(.geocode, 0), (.weather, 0), (.palette, 0), (.fonts, 0), (.image, 0),
       (.geocode, 10), (.weather, 10), (.palette, 10), (.fonts, 10), (.image, 10)] ∧
    (processPosts oAll [(("Paris"), 0), (("Paris"), 10)]).1 =
      [(indexPost oAll ("Paris") 0).1, (indexPost oAll ("Paris") 0).1] :=
  ⟨rfl, rfl⟩

/-- C2 (amended): the handler has no response cache.  Every POST that
passes lookup and weather fetch performs the full generation sequence, so
a second POST for the same city — at any interval — re-invokes the
geocoder, the weather fetch and all three generators; the two responses
coincide only because the same collaborator results are recomputed. -/
theorem c2_amended_no_response_cache (o : Collab) (city : String) (t1 t2 : Nat)
    (coords : Int × Int) (wd : WeatherData)
    (hg : o.geocode city = some coords) (hw : o.weather coords = some wd) :
    (processPosts o [(city, t1), (city, t2)]).2 =
      [(.geocode, t1), (.weather, t1), (.palette, t1), (.fonts, t1), (.image, t1),
       (.geocode, t2), (.weather, t2), (.palette, t2), (.fonts, t2), (.image, t2)] ∧
    (processPosts o [(city, t1), (city, t2)]).1 =
      [(indexPost o city t1).1, (indexPost o city t1).1] := by
  constructor
  · simp [processPosts, indexPost, hg, hw]
  · simp [processPosts, indexPost, hg, hw]

theorem c2_amended_witness :
    (processPosts oAll [(("Paris"), 3), (("Paris"), 60)]).2 =
      [(.geocode, 3), (.weather, 3), (.palette, 3), (.fonts, 3), (.image, 3),
       (.geocode, 60), (.weather, 60), (.palette, 60), (.fonts, 60), (.image, 60)] ∧
    (processPosts oAll [(("Paris"), 3), (("Paris"), 60)]).1 =
      [(indexPost oAll ("Paris") 3).1, (indexPost oAll ("Paris") 3).1] :=
  c2_amended_no_response_cache oAll ("Paris") 3 60 (48, 2) wd0 rfl rfl

/-! ## Claim C3 -/

/-- C3 is false as stated: there is no rate limiter.  Seven POSTs
processed at time 0 dispatch 35 outbound calls, every one of them at time
0 — in particular the 31st call of the 60-second window is dispatched
immediately rather than delayed. -/
theorem c3_counterexample :
    ((processPosts oAll (List.replicate 7 (("Paris"), 0))).2).length = 35 ∧
    ((processPosts oAll (List.replicate 7 (("Paris"), 0))).2).map Prod.snd =
      List.replicate 35 0 ∧
    ((processPosts oAll (List.replicate 7 (("Paris"), 0))).2)[30]? =
      some (.geocode, 0) :=
  ⟨rfl, rfl, rfl⟩

/-- C3 (amended): no outbound call is ever delayed: each of the calls a
request dispatches (coordinate lookup, weather fetch, palette, font and
image generation) is issued at the very time the request is processed,
regardless of how many calls preceded it. -/
theorem c3_amended_no_rate_limiter (o : Collab) (city : String) (t : Nat) :
    ∀ e ∈ (indexPost o city t).2, e.2 = t := by
  intro e he
  simp only [indexPost] at he
  cases hG : o.geocode city with
  | none =>
      rw [hG] at he
      simp at he
      rw [he]
  | some coords =>
      simp only [hG] at he
      cases hW : o.weather coords with
      | none =>
          simp only [hW] at he
          simp at he
          rcases he with rfl | rfl <;> rfl
      | some wd =>
          simp only [hW] at he
          simp at he
          rcases he with rfl | rfl | rfl | rfl | rfl <;> rfl

theorem c3_amended_witness :
    ((ExtCall.palette, 5) ∈ (indexPost oAll ("Paris") 5).2) ∧
    ((ExtCall.palette, 5) : ExtCall × Nat).2 = 5 :=
  ⟨by decide, c3_amended_no_rate_limiter oAll ("Paris") 5 (ExtCall.palette, 5)
    (by decide)⟩

/-! ## Claim C6 -/

/-- C6 is false as stated: the three generation calls do not run
concurrently.  The dispatch log of a successful request is the fixed
sequential list geocode, weather, palette, fonts, image — the font call is
issued only after the palette call has returned, and the image call only
after the font call. -/
theorem c6_counterexample :
    (indexPost oAll ("Paris") 0).2 =
      [(.geocode, 0), (.weather, 0), (.palette, 0), (.fonts, 0), (.image, 0)] :=
  rfl

/-- C6 (amended): the three generation calls execute sequentially, in the
fixed order palette, then fonts, then image; all three are always
dispatched before rendering, whatever each generator returns — a failure
of one does not skip or reorder the others. -/
theorem c6_amended_sequential_generation (o : Collab) (city : String) (t : Nat)
    (coords : Int × Int) (wd : WeatherData)
    (hg : o.geocode city = some coords) (hw : o.weather coords = some wd) :
    (indexPost o city t).2 =
      [(.geocode, t), (.weather, t), (.palette, t), (.fonts, t), (.image, t)] := by
  simp [indexPost, hg, hw]

theorem c6_amended_witness :
    (indexPost oPalFail ("Paris") 7).2 =
      [(.geocode, 7), (.weather, 7), (.palette, 7), (.fonts, 7), (.image, 7)] :=
  c6_amended_sequential_generation oPalFail ("Paris") 7 (48, 2) wd0 rfl rfl

/-! ## Claim C5 -/

/-- The cached directory state of the C5 scenario: a fresh sidecar whose
referenced image file exists on disk. -/
def parisCachedFS : ImgFS :=
  { images := [("paris_clear_sky_1000.png", 1000)],
    sidecars := [("paris_clear_sky.json",
      ⟨1000, "/static/images/paris_clear_sky_1000.png", "Paris", "Clear sky"⟩)] }

/-- C5 (code bug): the spec's three hit conditions all hold — (a) the
sidecar entry for the slugified key exists, (b) its recorded timestamp is
under 24 hours old, (c) the referenced image file exists on disk — yet the
lookup misses and the image is regenerated.  The existence check mangles
the path with Python's `lstrip('/static/')` (a character-set strip, not a
prefix strip), producing `static/mages/...`, which never exists. -/
theorem c5_fresh_cached_image_not_served :
    (lookupAssoc parisCachedFS.sidecars ("paris_clear_sky.json")).isSome = true ∧
    ((2000 : Int) - 1000 < 86400) ∧
    relExists parisCachedFS ("static/images/paris_clear_sky_1000.png") = true ∧
    pyLstrip ("/static/images/paris_clear_sky_1000.png") ("/static/")
      = "mages/paris_clear_sky_1000.png" ∧
    (generate_city_image parisCachedFS 2000 false ("Paris") ("Clear sky")).1
      = none ∧
    (generate_city_image parisCachedFS 2000 true ("Paris") ("Clear sky")).1
      = some ("/static/images/paris_clear_sky_2000.png") :=
  ⟨rfl, by decide, rfl, rfl, by decide, by decide⟩

/-! ## Claim C4 -/

set_option maxRecDepth 4000

/-- C4 is false as stated: eviction runs before the new image is written,
so the 21st `Put` sees only 20 existing images and deletes nothing.
After 21 sequential `Put`s with distinct keys, all 21 image files remain,
the oldest (`c0_x_0.png`) included, together with its sidecar. -/
theorem c4_counterexample :
    ((runPuts ("x") ((List.range 21).map (fun i => ("c" ++ toString i, i)))).images).length
      = 21 ∧
    (("c0_x_0.png", 0) ∈
      (runPuts ("x") ((List.range 21).map (fun i => ("c" ++ toString i, i)))).images) ∧
    (lookupAssoc (runPuts ("x")
      ((List.range 21).map (fun i => ("c" ++ toString i, i)))).sidecars
        ("c0_x.json")).isSome = true :=
  ⟨by decide, by decide, by decide⟩

theorem insertByCtime_perm (x : String × Nat) (l : List (String × Nat)) :
    List.Perm (insertByCtime x l) (x :: l) := by
  induction l with
  | nil => simp [insertByCtime]
  | cons y ys ih =>
      simp only [insertByCtime]
      by_cases h : x.2 ≥ y.2
      · rw [if_pos h]
      · rw [if_neg h]
        exact List.Perm.trans (List.Perm.cons y ih) (List.Perm.swap x y ys)

theorem sortByCtimeDesc_perm (l : List (String × Nat)) :
    List.Perm (sortByCtimeDesc l) l := by
  induction l with
  | nil => simp [sortByCtimeDesc]
  | cons x xs ih =>
      simp only [sortByCtimeDesc, List.foldr_cons]
      exact List.Perm.trans (insertByCtime_perm x _) (List.Perm.cons x ih)

theorem sortByCtimeDesc_length (l : List (String × Nat)) :
    (sortByCtimeDesc l).length = l.length :=
  (sortByCtimeDesc_perm l).length_eq

theorem all_not_eq_iff (ds : List (String × Nat)) (x : String) :
    (ds.all (fun old => !decide (x = old.1)) = true) ↔ x ∉ ds.map Prod.fst := by
  rw [List.all_eq_true]
  constructor
  · intro h hx
    obtain ⟨p, hp, hpx⟩ := List.mem_map.mp hx
    have h2 := h p hp
    rw [hpx] at h2
    simp at h2
  · intro h old hold
    have hne : x ≠ old.1 := by
      intro hx
      exact h (List.mem_map.mpr ⟨old, hold, hx.symm⟩)
    simp [hne]

theorem all_not_eq_self_mem {ds : List (String × Nat)} {p : String × Nat}
    (hp : p ∈ ds) : ds.all (fun old => !decide (p.1 = old.1)) = false := by
  cases hall : ds.all (fun old => !decide (p.1 = old.1)) with
  | false => rfl
  | true =>
      have h2 := List.all_eq_true.mp hall p hp
      simp at h2

theorem evict_fold_spec (ds : List (String × Nat)) (fs : ImgFS) :
    (ds.foldl (fun s old =>
      { images := s.images.filter (fun p => !decide (p.1 = old.1)),
        sidecars := s.sidecars.filter (fun p => !decide (p.1 = pngSidecarName old.1)) })
      fs)
    = { images := fs.images.filter
          (fun p => ds.all (fun old => !decide (p.1 = old.1))),
        sidecars := fs.sidecars.filter
          (fun p => ds.all (fun old => !decide (p.1 = pngSidecarName old.1))) } := by
  induction ds generalizing fs with
  | nil => simp
  | cons d ds ih =>
      simp only [List.foldl_cons, ih, List.filter_filter]
      congr 1
      · apply List.filter_congr
        intro p _
        rw [Bool.and_comm]
        rfl
      · apply List.filter_congr
        intro p _
        rw [Bool.and_comm]
        rfl

theorem lookupAssoc_filter_none {α : Type} (l : List (String × α))
    (pred : String × α → Bool) (k : String)
    (h : ∀ v, pred (k, v) = false) : lookupAssoc (l.filter pred) k = none := by
  induction l with
  | nil => rfl
  | cons p rest ih =>
      obtain ⟨k', v'⟩ := p
      by_cases hk : k' = k
      · subst hk
        simp [List.filter_cons, h v', ih]
      · cases hp : pred (k', v') with
        | false => simp [List.filter_cons, hp, ih]
        | true => simp [List.filter_cons, hp, lookupAssoc, hk, ih]

theorem evicted_images_perm {l : List (String × Nat)}
    (hnodup : (l.map Prod.fst).Nodup) :
    List.Perm
      (l.filter (fun p => ((sortByCtimeDesc l).drop 20).all
        (fun old => !decide (p.1 = old.1))))
      ((sortByCtimeDesc l).take 20) := by
  have hperm : List.Perm l (sortByCtimeDesc l) := (sortByCtimeDesc_perm l).symm
  have h1 := hperm.filter
    (fun p => ((sortByCtimeDesc l).drop 20).all (fun old => !decide (p.1 = old.1)))
  have hnodupS : ((sortByCtimeDesc l).map Prod.fst).Nodup :=
    (((sortByCtimeDesc_perm l).map Prod.fst).nodup_iff).mpr hnodup
  have hdisj : List.Disjoint (((sortByCtimeDesc l).take 20).map Prod.fst)
      (((sortByCtimeDesc l).drop 20).map Prod.fst) := by
    have h2 : ((((sortByCtimeDesc l).take 20).map Prod.fst) ++
        (((sortByCtimeDesc l).drop 20).map Prod.fst)).Nodup := by
      rw [← List.map_append, List.take_append_drop]
      exact hnodupS
    exact (List.nodup_append.mp h2).2.2
  have hfilTake : ((sortByCtimeDesc l).take 20).filter
      (fun p => ((sortByCtimeDesc l).drop 20).all (fun old => !decide (p.1 = old.1)))
      = (sortByCtimeDesc l).take 20 := by
    rw [List.filter_eq_self]
    intro p hp
    rw [all_not_eq_iff]
    intro hmem
    exact hdisj (List.mem_map_of_mem Prod.fst hp) hmem
  have hfilDrop : ((sortByCtimeDesc l).drop 20).filter
      (fun p => ((sortByCtimeDesc l).drop 20).all (fun old => !decide (p.1 = old.1)))
      = [] := by
    rw [List.filter_eq_nil_iff]
    intro p hp
    rw [all_not_eq_self_mem hp]
    simp
  have hsplit2 : (sortByCtimeDesc l).filter
      (fun p => ((sortByCtimeDesc l).drop 20).all (fun old => !decide (p.1 = old.1)))
      = ((sortByCtimeDesc l).take 20 ++ (sortByCtimeDesc l).drop 20).filter
        (fun p => ((sortByCtimeDesc l).drop 20).all (fun old => !decide (p.1 = old.1))) := by
    rw [List.take_append_drop]
  have h3 : (sortByCtimeDesc l).filter
      (fun p => ((sortByCtimeDesc l).drop 20).all (fun old => !decide (p.1 = old.1)))
      = (sortByCtimeDesc l).take 20 := by
    rw [hsplit2, List.filter_append, hfilTake, hfilDrop, List.append_nil]
  rw [h3] at h1
  exact h1

theorem sorted_names_disjoint {l : List (String × Nat)}
    (hnodup : (l.map Prod.fst).Nodup) :
    List.Disjoint (((sortByCtimeDesc l).take 20).map Prod.fst)
      (((sortByCtimeDesc l).drop 20).map Prod.fst) := by
  have hnodupS : ((sortByCtimeDesc l).map Prod.fst).Nodup :=
    (((sortByCtimeDesc_perm l).map Prod.fst).nodup_iff).mpr hnodup
  have h2 : ((((sortByCtimeDesc l).take 20).map Prod.fst) ++
      (((sortByCtimeDesc l).drop 20).map Prod.fst)).Nodup := by
    rw [← List.map_append, List.take_append_drop]
    exact hnodupS
  exact (List.nodup_append.mp h2).2.2

/-- C4 (amended): eviction runs before the new image is written and
considers only the previously stored images: a cache-missing `Put` onto a
directory of `n` images deletes exactly the images beyond the 20 newest of
those `n` and then writes the new image, leaving `min (n+1) 21` images —
so after 21 sequential distinct `Put`s all 21 images remain, and only from
the 22nd `Put` on is the oldest image deleted.  The accompanying attempt
to delete the evicted images' sidecar records targets the name derived
from the timestamped image filename (`{key}_{timestamp}.json`), which is
never the name the records are written under (`{key}.json`), so no
existing sidecar record is ever deleted and the records of evicted images
survive orphaned; the only sidecar change is writing the new record. -/
theorem c4_amended_eviction_law (fs : ImgFS) (now : Nat) (city weather : String)
    (key fn : String)
    (hkey : key = secure_filename (strLower city) ++ "_"
      ++ secure_filename (strLower weather))
    (hfneq : fn = key ++ "_" ++ toString now ++ ".png")
    (hmiss : lookupAssoc fs.sidecars (key ++ ".json") = none)
    (hnodup : (fs.images.map Prod.fst).Nodup)
    (hfnnew : fn ∉ fs.images.map Prod.fst) :
    (generate_city_image fs now true city weather).1
      = some ("/static/images/" ++ fn) ∧
    List.Perm (generate_city_image fs now true city weather).2.images
      ((fn, now) :: (sortByCtimeDesc fs.images).take 20) ∧
    (generate_city_image fs now true city weather).2.images.length
      = min (fs.images.length + 1) 21 ∧
    (∀ old ∈ (sortByCtimeDesc fs.images).drop 20,
      old.1 ∉ (generate_city_image fs now true city weather).2.images.map Prod.fst) ∧
    ((generate_city_image fs now true city weather).2.sidecars
      = assocSet (fs.sidecars.filter
          (fun p => ((sortByCtimeDesc fs.images).drop 20).all
            (fun old => !decide (p.1 = pngSidecarName old.1))))
        (key ++ ".json") ⟨now, "/static/images/" ++ fn, city, weather⟩) ∧
    ((∀ s ∈ fs.sidecars, ∀ old ∈ (sortByCtimeDesc fs.images).drop 20,
        s.1 ≠ pngSidecarName old.1) →
      (generate_city_image fs now true city weather).2.sidecars
        = assocSet fs.sidecars (key ++ ".json")
            ⟨now, "/static/images/" ++ fn, city, weather⟩) := by
  subst hfneq
  subst hkey
  simp only [generate_city_image, hmiss]
  rw [if_pos (trivial : True)]
  by_cases hlen : (sortByCtimeDesc fs.images).length > 20
  · rw [if_pos hlen, evict_fold_spec]
    have houter : (fs.images.filter (fun p => ((sortByCtimeDesc fs.images).drop 20).all
          (fun old => !decide (p.1 = old.1)))).filter
          (fun p => !decide (p.1 = secure_filename (strLower city) ++ "_"
            ++ secure_filename (strLower weather) ++ "_" ++ toString now ++ ".png"))
        = fs.images.filter (fun p => ((sortByCtimeDesc fs.images).drop 20).all
          (fun old => !decide (p.1 = old.1))) := by
      rw [List.filter_eq_self]
      intro p hp
      have hpl : p ∈ fs.images := List.mem_of_mem_filter hp
      have hne : p.1 ≠ secure_filename (strLower city) ++ "_"
          ++ secure_filename (strLower weather) ++ "_" ++ toString now ++ ".png" :=
        fun he => hfnnew (he ▸ List.mem_map_of_mem Prod.fst hpl)
      simp [hne]
    rw [houter]
    have hperm := evicted_images_perm hnodup
    have hsidefil : ∀ (hside : ∀ s ∈ fs.sidecars,
        ∀ old ∈ (sortByCtimeDesc fs.images).drop 20, s.1 ≠ pngSidecarName old.1),
        fs.sidecars.filter
          (fun p => ((sortByCtimeDesc fs.images).drop 20).all
            (fun old => !decide (p.1 = pngSidecarName old.1))) = fs.sidecars := by
      intro hside
      rw [List.filter_eq_self]
      intro s hs
      rw [List.all_eq_true]
      intro old hold
      simp [hside s hs old hold]
    refine ⟨rfl, hperm.cons _, ?_, ?_, rfl, ?_⟩
    · simp only [List.length_cons, hperm.length_eq, List.length_take,
        sortByCtimeDesc_length]
      omega
    · intro old hold
      have holdS : old ∈ sortByCtimeDesc fs.images := List.mem_of_mem_drop hold
      have holdL : old ∈ fs.images := (sortByCtimeDesc_perm fs.images).mem_iff.mp holdS
      have holdN : old.1 ∈ fs.images.map Prod.fst :=
        List.mem_map_of_mem Prod.fst holdL
      intro hmem
      simp only [List.map_cons, List.mem_cons] at hmem
      rcases hmem with hfn1 | hmem
      · exact hfnnew (hfn1 ▸ holdN)
      · have hmem2 : old.1 ∈ ((sortByCtimeDesc fs.images).take 20).map Prod.fst :=
          ((hperm.map Prod.fst).mem_iff).mp hmem
        exact sorted_names_disjoint hnodup hmem2 (List.mem_map_of_mem Prod.fst hold)
    · intro hside
      rw [hsidefil hside]
  · rw [if_neg hlen]
    have houter0 : fs.images.filter (fun p => !decide (p.1 =
        secure_filename (strLower city) ++ "_" ++ secure_filename (strLower weather)
          ++ "_" ++ toString now ++ ".png")) = fs.images := by
      rw [List.filter_eq_self]
      intro p hp
      have hne : p.1 ≠ secure_filename (strLower city) ++ "_"
          ++ secure_filename (strLower weather) ++ "_" ++ toString now ++ ".png" :=
        fun he => hfnnew (he ▸ List.mem_map_of_mem Prod.fst hp)
      simp [hne]
    rw [houter0]
    have hle : (sortByCtimeDesc fs.images).length ≤ 20 := Nat.le_of_not_lt hlen
    have htake : (sortByCtimeDesc fs.images).take 20 = sortByCtimeDesc fs.images :=
      List.take_of_length_le hle
    have hdrop : (sortByCtimeDesc fs.images).drop 20 = [] :=
      List.drop_eq_nil_of_le hle
    refine ⟨rfl, ?_, ?_, ?_, ?_, ?_⟩
    · rw [htake]
      exact (sortByCtimeDesc_perm fs.images).symm.cons _
    · simp only [List.length_cons]
      rw [sortByCtimeDesc_length] at hle
      omega
    · intro old hold
      rw [hdrop] at hold
      simp at hold
    · rw [hdrop]
      simp
    · intro _
      rfl

/-- A directory state as 21 distinct `Put`s would leave it: 21 timestamped
images together with their 21 `{key}.json` sidecar records (the 22nd-put
scenario). -/
def fsBig : ImgFS :=
  { images := (List.range 21).map
      (fun i => ("c" ++ toString i ++ "_x_" ++ toString i ++ ".png", i)),
    sidecars := (List.range 21).map
      (fun i => ("c" ++ toString i ++ "_x.json",
        ⟨i, "/static/images/c" ++ toString i ++ "_x_" ++ toString i ++ ".png",
         "c" ++ toString i, "x"⟩)) }

theorem c4_amended_witness :
    (generate_city_image fsBig 100 true ("Paris") ("Clear sky")).1
      = some ("/static/images/" ++ "paris_clear_sky_100.png") ∧
    List.Perm (generate_city_image fsBig 100 true ("Paris") ("Clear sky")).2.images
      (("paris_clear_sky_100.png", 100) :: (sortByCtimeDesc fsBig.images).take 20) ∧
    (generate_city_image fsBig 100 true ("Paris") ("Clear sky")).2.images.length
      = min (fsBig.images.length + 1) 21 ∧
    ("c0_x_0.png" ∉
      (generate_city_image fsBig 100 true ("Paris") ("Clear sky")).2.images.map
        Prod.fst) ∧
    ((generate_city_image fsBig 100 true ("Paris") ("Clear sky")).2.sidecars
      = assocSet fsBig.sidecars ("paris_clear_sky" ++ ".json")
          ⟨100, "/static/images/" ++ "paris_clear_sky_100.png",
           "Paris", "Clear sky"⟩) ∧
    (lookupAssoc
      (generate_city_image fsBig 100 true ("Paris") ("Clear sky")).2.sidecars
      ("c0_x.json")
      = some ⟨0, "/static/images/c0_x_0.png", "c0", "x"⟩) :=
  ⟨(c4_amended_eviction_law fsBig 100 ("Paris") ("Clear sky") ("paris_clear_sky")
      ("paris_clear_sky_100.png") (by decide) (by decide) rfl (by decide)
      (by decide)).1,
   (c4_amended_eviction_law fsBig 100 ("Paris") ("Clear sky") ("paris_clear_sky")
      ("paris_clear_sky_100.png") (by decide) (by decide) rfl (by decide)
      (by decide)).2.1,
   (c4_amended_eviction_law fsBig 100 ("Paris") ("Clear sky") ("paris_clear_sky")
      ("paris_clear_sky_100.png") (by decide) (by decide) rfl (by decide)
      (by decide)).2.2.1,
   (c4_amended_eviction_law fsBig 100 ("Paris") ("Clear sky") ("paris_clear_sky")
      ("paris_clear_sky_100.png") (by decide) (by decide) rfl (by decide)
      (by decide)).2.2.2.1 ("c0_x_0.png", 0) (by decide),
   (c4_amended_eviction_law fsBig 100 ("Paris") ("Clear sky") ("paris_clear_sky")
      ("paris_clear_sky_100.png") (by decide) (by decide) rfl (by decide)
      (by decide)).2.2.2.2.2 (by decide),
   by decide⟩

/-! ## Claim C9: `rgb_to_hex` on canonical `rgb(r,g,b)` strings -/

/-- The canonical `rgb(r,g,b)` rendering of an integer triple (built at
the character level; `rgbInputStr 1 2 3 = "rgb(1,2,3)"` holds by
computation). -/
def rgbInputStr (r g b : Nat) : String :=
  String.mk (['r', 'g', 'b', '('] ++
    ((Nat.repr r).toList ++ ',' :: ((Nat.repr g).toList ++ ',' :: (Nat.repr b).toList))
    ++ [')'])

/-- The spec's expected form: the lowercase two-hex-digit encoding of each
byte, assembled into `#rrggbb` (this is the definition the claim's
"hexadecimal encoding of r, g, b" refers to; `rgb_to_hex` is proved to
produce exactly it). -/
def hexByte (n : Nat) : List Char := [Nat.digitChar (n / 16), Nat.digitChar (n % 16)]

def hexColorStr (r g b : Nat) : String :=
  String.mk ('#' :: (hexByte r ++ hexByte g ++ hexByte b))

theorem parse_repr_byte :
    ∀ n : Nat, n < 256 → parsePyInt (Nat.repr n).toList = some ((n : Nat) : Int) := by
  decide

theorem repr_byte_digits :
    ∀ n : Nat, n < 256 →
      ((Nat.repr n).toList ≠ [] ∧ (Nat.repr n).toList.all Char.isDigit = true) := by
  decide

theorem format02x_byte :
    ∀ n : Nat, n < 256 → pyFormat02x ((n : Nat) : Int) = hexByte n := by
  decide

theorem isDigit_not_strip {c : Char} (h : c.isDigit = true) :
    rgbStripSet.contains c = false := by
  cases hc : rgbStripSet.contains c with
  | false => rfl
  | true =>
      simp [rgbStripSet] at hc
      rcases hc with rfl | rfl | rfl | rfl | rfl <;> simp at h

theorem isDigit_ne_comma {c : Char} (h : c.isDigit = true) : c ≠ ',' := by
  intro hc
  subst hc
  simp at h

theorem dropWhile_append_all {p : Char → Bool} {xs : List Char} (ys : List Char)
    (h : ∀ x ∈ xs, p x = true) :
    (xs ++ ys).dropWhile p = ys.dropWhile p := by
  induction xs with
  | nil => rfl
  | cons x xs ih =>
      rw [List.cons_append, List.dropWhile_cons, if_pos (h x (List.mem_cons_self x xs))]
      exact ih (fun y hy => h y (List.mem_cons_of_mem x hy))

theorem dropWhile_cons_neg {p : Char → Bool} {x : Char} {xs : List Char}
    (h : p x = false) : (x :: xs).dropWhile p = x :: xs := by
  rw [List.dropWhile_cons, if_neg (by simp [h])]

theorem splitOnChar_not_mem {c : Char} {xs : List Char} (h : c ∉ xs) :
    splitOnChar c xs = [xs] := by
  induction xs with
  | nil => rfl
  | cons x xs ih =>
      have hx : x ≠ c := fun he => h (he ▸ List.mem_cons_self x xs)
      have h' : c ∉ xs := fun hm => h (List.mem_cons_of_mem x hm)
      rw [splitOnChar, if_neg hx, ih h']

theorem splitOnChar_append {c : Char} {xs ys : List Char} (h : c ∉ xs) :
    splitOnChar c (xs ++ c :: ys) = xs :: splitOnChar c ys := by
  induction xs with
  | nil =>
      rw [List.nil_append, splitOnChar, if_pos rfl]
  | cons x xs ih =>
      have hx : x ≠ c := fun he => h (he ▸ List.mem_cons_self x xs)
      have h' : c ∉ xs := fun hm => h (List.mem_cons_of_mem x hm)
      rw [List.cons_append, splitOnChar, if_neg hx, ih h']

theorem pyStripChars_wrap (cs pre mid post : List Char)
    (hpre : ∀ x ∈ pre, cs.contains x = true)
    (hpost : ∀ x ∈ post, cs.contains x = true)
    (h1 : Char) (t1 : List Char) (hm1 : mid = h1 :: t1) (hh1 : cs.contains h1 = false)
    (h2 : Char) (t2 : List Char) (hm2 : mid.reverse = h2 :: t2)
    (hh2 : cs.contains h2 = false) :
    pyStripChars cs (pre ++ (mid ++ post)) = mid := by
  unfold pyStripChars
  rw [dropWhile_append_all (mid ++ post) hpre]
  rw [hm1, List.cons_append, dropWhile_cons_neg hh1, ← List.cons_append, ← hm1]
  rw [List.reverse_append]
  rw [dropWhile_append_all mid.reverse
    (fun x hx => hpost x (List.mem_reverse.mp hx))]
  rw [hm2, dropWhile_cons_neg hh2, ← hm2, List.reverse_reverse]

/-- C9: for every palette color value given as an `rgb(r,g,b)` string
with `r`, `g`, `b` integers in 0..255, `rgb_to_hex` produces the lowercase
`#rrggbb` hex string whose digits are the hexadecimal encoding of `r`,
`g`, `b`. -/
theorem rgb_to_hex_byte_triple (r g b : Nat)
    (hr : r ≤ 255) (hg : g ≤ 255) (hb : b ≤ 255) :
    rgb_to_hex (rgbInputStr r g b) = .ok (hexColorStr r g b) := by
  have hr' : r < 256 := by omega
  have hg' : g < 256 := by omega
  have hb' : b < 256 := by omega
  obtain ⟨hRne, hRdig⟩ := repr_byte_digits r hr'
  obtain ⟨hGne, hGdig⟩ := repr_byte_digits g hg'
  obtain ⟨hBne, hBdig⟩ := repr_byte_digits b hb'
  have hdigR := List.all_eq_true.mp hRdig
  have hdigG := List.all_eq_true.mp hGdig
  have hdigB := List.all_eq_true.mp hBdig
  obtain ⟨h1, t1, hm1⟩ := List.exists_cons_of_ne_nil hRne
  have hh1 : rgbStripSet.contains h1 = false :=
    isDigit_not_strip (hdigR h1 (hm1 ▸ List.mem_cons_self _ _))
  have hBrevne : (Nat.repr b).toList.reverse ≠ [] := by
    simpa using hBne
  obtain ⟨h2, t2, hm2⟩ := List.exists_cons_of_ne_nil hBrevne
  have hh2 : rgbStripSet.contains h2 = false :=
    isDigit_not_strip (hdigB h2 (List.mem_reverse.mp (hm2 ▸ List.mem_cons_self _ _)))
  have hcommaR : ',' ∉ (Nat.repr r).toList := fun hmem => by
    have h3 := hdigR ',' hmem
    simp at h3
  have hcommaG : ',' ∉ (Nat.repr g).toList := fun hmem => by
    have h3 := hdigG ',' hmem
    simp at h3
  have hcommaB : ',' ∉ (Nat.repr b).toList := fun hmem => by
    have h3 := hdigB ',' hmem
    simp at h3
  have hlist : (rgbInputStr r g b).toList
      = ['r', 'g', 'b', '('] ++
        (((Nat.repr r).toList ++ ',' ::
          ((Nat.repr g).toList ++ ',' :: (Nat.repr b).toList)) ++ [')']) := by
    simp [rgbInputStr]
  have hstrip : pyStripChars rgbStripSet (rgbInputStr r g b).toList
      = (Nat.repr r).toList ++ ',' ::
          ((Nat.repr g).toList ++ ',' :: (Nat.repr b).toList) := by
    rw [hlist]
    refine pyStripChars_wrap rgbStripSet _ _ _ (by decide) (by decide)
      h1 (t1 ++ ',' :: ((Nat.repr g).toList ++ ',' :: (Nat.repr b).toList))
      (by rw [hm1]; rfl) hh1
      h2 (t2 ++ (((Nat.repr r).toList ++ ',' :: ((Nat.repr g).toList ++ [','])).reverse))
      ?_ hh2
    have hassoc : (Nat.repr r).toList ++ ',' ::
        ((Nat.repr g).toList ++ ',' :: (Nat.repr b).toList)
        = ((Nat.repr r).toList ++ ',' :: ((Nat.repr g).toList ++ [','])) ++
          (Nat.repr b).toList := by
      simp
    rw [hassoc, List.reverse_append, hm2, List.cons_append]
  have hhead : (rgbInputStr r g b).toList.head? = some 'r' := by
    rw [hlist]
    rfl
  rw [rgb_to_hex, if_neg (by rw [hhead]; decide), hstrip,
    splitOnChar_append hcommaR, splitOnChar_append hcommaG,
    splitOnChar_not_mem hcommaB]
  simp only [List.mapM_cons, List.mapM_nil, parse_repr_byte r hr',
    parse_repr_byte g hg', parse_repr_byte b hb', Option.bind_some,
    Option.pure_def, Option.bind_eq_bind, Option.some_bind]
  simp only [format02x_byte r hr', format02x_byte g hg', format02x_byte b hb']
  rfl

theorem c9_witness :
    rgbInputStr 255 128 0 = "rgb(255,128,0)" ∧
    hexColorStr 255 128 0 = "#ff8000" ∧
    rgb_to_hex (rgbInputStr 255 128 0) = .ok (hexColorStr 255 128 0) :=
  ⟨rfl, rfl,
   rgb_to_hex_byte_triple 255 128 0 (by decide) (by decide) (by decide)⟩
